import Mathlib

/-!
Verification development for the Spec-to-Pack Studio pipeline
(`src/studio`): a shallow embedding of the orchestrator's step
executor and retry wrapper (`orchestrator.py`), the agent-invocation
protocol (`_run_agent`), the balanced/deep pipeline state machine,
the multi-level research cache (`cache/research_cache.py`), and the
content guards (`guards/content_guards.py`), together with theorems
settling the behavioural claims about those components.

Machine integers do not arise (Python ints are unbounded); wall-clock
durations, which Python measures as floats, are modelled as exact
rationals.  Where a claim's comparison mixes ints and floats
(`last_period > max_chars * 0.8` in `check_content_size`), the float
comparison agrees with the exact rational one for all feasible
operand sizes, and the rational form is used.
-/

deriving instance DecidableEq for Except

namespace SpecToPack

/-- Embeds `studio.types.Status` (a plain Python `Enum`, not a `str`
subclass). -/
inductive PyStatus where
  | ok
  | retry
  | fail
deriving DecidableEq

/-- Embeds `Status.<member>.value`. -/
def PyStatus.value : PyStatus → String
  | .ok => "ok"
  | .retry => "retry"
  | .fail => "fail"

/-- The runtime value held by `AgentOutput.status`.  The field is
declared `status: str` and every agent in `agents/base.py` passes
`Status.X.value` (a string), while `Orchestrator._run_agent` compares
the field against the enum member `Status.FAIL` itself.  Both shapes
are representable so that the comparison can be embedded exactly. -/
inductive StatusVal where
  | pyStr (s : String)
  | pyEnum (e : PyStatus)
deriving DecidableEq

/-- Python `==` between two values that may be a `str` or a `Status`
enum member.  A `str` and a non-`str` `Enum` member are never equal in
Python (`Enum` keeps identity-based equality), which is the crux of
the dead `Status.FAIL` branch in `_run_agent`. -/
def statusValEq : StatusVal → StatusVal → Bool
  | .pyStr a, .pyStr b => a = b
  | .pyEnum a, .pyEnum b => a = b
  | _, _ => false

/-- Embeds `studio.types.AudienceMode`. -/
inductive AudienceMode where
  | brief
  | balanced
  | deep
deriving DecidableEq

/-- Embeds `AudienceMode.<member>.value`. -/
def AudienceMode.value : AudienceMode → String
  | .brief => "brief"
  | .balanced => "balanced"
  | .deep => "deep"

/-- Embeds `studio.types.PackType`. -/
inductive MPackType where
  | balanced
  | deep
  | both
deriving DecidableEq

/-- Embeds the slice of `studio.types.SourceSpec` the orchestrator's
control flow inspects: whether `SchemaValidator.validate(spec).ok`
holds (the validator itself is an external collaborator, modelled by
its verdict) and `spec.export.bundle`. -/
structure MSourceSpec where
  schemaOk : Bool
  exportBundle : Bool
deriving DecidableEq

/-- Embeds the slice of `studio.types.RunContext` used by the
pipeline guards: `offline` and `dials.audience_mode`. -/
structure MRunContext where
  offline : Bool
  audienceMode : AudienceMode
deriving DecidableEq

/-- Embeds `studio.artifacts.Artifact` as the packaging stage sees
it: name, filesystem path, and the lazily computed `sha256_hash`.
Whether `path.exists()` holds is supplied separately as a filesystem
snapshot (`String → Bool`). -/
structure MArtifact where
  name : String
  path : String
  sha256Hash : Option String
deriving DecidableEq

/-- Embeds `studio.artifacts.AgentOutput` (notes are irrelevant to
control flow and omitted). -/
structure MAgentOutput where
  artifacts : List MArtifact
  updatedSpec : Option MSourceSpec
  status : StatusVal
deriving DecidableEq

/-- The exceptions raised by the embedded code paths, each carrying
its `str(e)` message: `BudgetExceededException`,
`StepTimeoutException`, `RuntimeError`, `ValueError`, and arbitrary
exceptions escaping an agent's `run`. -/
inductive PyErr where
  | budgetExceeded (msg : String)
  | stepTimeout (msg : String)
  | runtimeError (msg : String)
  | valueError (msg : String)
  | other (msg : String)
deriving DecidableEq

/-- The `str(e)` rendering used in audit notes. -/
def PyErr.msg : PyErr → String
  | .budgetExceeded m => m
  | .stepTimeout m => m
  | .runtimeError m => m
  | .valueError m => m
  | .other m => m

/-- Embeds one `AuditLog.log_event` record (`audit.py`): the
positional `event_type` and `note`, and the keyword fields with their
Python defaults.  The `details` mapping is narrowed to the two keys
the orchestrator ever writes (`duration_sec`, `error`). -/
structure AuditEvent where
  eventType : String
  note : String
  stage : String := "unknown"
  event : String := ""
  durationMs : Option Int := none
  level : String := "info"
  detailsDurationSec : Option Rat := none
  detailsError : Option String := none
deriving DecidableEq

/-- The orchestrator's configuration: `step_budget`,
`timeout_per_step_sec`, `max_retries`, `base_backoff_sec`
(`Orchestrator.__init__`). -/
structure OrchCfg where
  stepBudget : Nat
  timeoutPerStepSec : Nat
  maxRetries : Nat
  baseBackoffSec : Nat
deriving DecidableEq

/-- The defaults set in `Orchestrator.__init__`: budget 12, timeout
60s, 3 retries, base backoff 2s. -/
def defaultCfg : OrchCfg :=
  { stepBudget := 12, timeoutPerStepSec := 60, maxRetries := 3, baseBackoffSec := 2 }

/-- Result of one `Orchestrator._execute_step` call: the returned
value or raised exception, the updated `self.step_count`, the audit
events appended during the call, and whether `step_func()` was
actually invoked. -/
structure StepOut (α : Type) where
  result : Except PyErr α
  stepCount : Nat
  events : List AuditEvent
  invoked : Bool
deriving DecidableEq

/-- The `step_start` event logged at the top of `_execute_step`. -/
def stepStartEvent (stepName : String) : AuditEvent :=
  { eventType := "step_start", note := "Starting step: " ++ stepName }

/-- The `step_complete` event logged on success, with
`duration_ms = int(duration * 1000)` and `stage`/`event` set. -/
def stepCompleteEvent (stepName : String) (duration : Rat) : AuditEvent :=
  { eventType := "step_complete",
    note := "Completed step: " ++ stepName,
    stage := stepName, event := "complete",
    durationMs := some (duration * 1000).floor,
    detailsDurationSec := some duration }

/-- The `step_error` event logged in the `except` block, with
severity `"error"` and the error message in the note and details. -/
def stepErrorEvent (stepName : String) (e : PyErr) (duration : Rat) : AuditEvent :=
  { eventType := "step_error",
    note := "Step " ++ stepName ++ " failed: " ++ e.msg,
    stage := stepName, event := "error",
    durationMs := some (duration * 1000).floor,
    level := "error",
    detailsDurationSec := some duration,
    detailsError := some e.msg }

/-- Embeds `Orchestrator._execute_step`.  The unit of work is given
by its outcome `run` (normal return value or raised exception) and
its measured wall-clock `duration`.  Faithful to the source order:
the budget check raises *before* the `step_start` event is logged and
outside the `try`; the post-hoc timeout check raises *inside* the
`try` (so its exception is logged as a `step_error`); `step_count` is
incremented only on the success path, after the timeout check. -/
def executeStep (cfg : OrchCfg) (stepCount : Nat) (stepName : String)
    (run : Except PyErr α) (duration : Rat) : StepOut α :=
  if stepCount ≥ cfg.stepBudget then
    { result := .error (.budgetExceeded
        ("Step budget of " ++ toString cfg.stepBudget ++ " exceeded")),
      stepCount := stepCount, events := [], invoked := false }
  else
    let startEv := stepStartEvent stepName
    match run with
    | .ok a =>
      if duration > (cfg.timeoutPerStepSec : Rat) then
        let e := PyErr.stepTimeout
          ("Step " ++ stepName ++ " exceeded timeout of "
            ++ toString cfg.timeoutPerStepSec ++ "s")
        { result := .error e, stepCount := stepCount,
          events := [startEv, stepErrorEvent stepName e duration], invoked := true }
      else
        { result := .ok a, stepCount := stepCount + 1,
          events := [startEv, stepCompleteEvent stepName duration], invoked := true }
    | .error e =>
      { result := .error e, stepCount := stepCount,
        events := [startEv, stepErrorEvent stepName e duration], invoked := true }

/-- Result of one `Orchestrator._execute_step_with_retry` call: the
final outcome, updated step counter, audit events in order, the
`time.sleep` backoff amounts in order, the step names passed to
`_execute_step` (one per attempt), and how many times the wrapped
step function was actually invoked. -/
structure RetryOut (α : Type) where
  result : Except PyErr α
  stepCount : Nat
  events : List AuditEvent
  sleeps : List Nat
  attemptNames : List String
  invocations : Nat
deriving DecidableEq

/-- The `step_retry` event logged before a backoff sleep. -/
def stepRetryEvent (cfg : OrchCfg) (stepName : String) (attempt : Nat) : AuditEvent :=
  { eventType := "step_retry",
    note := "Retrying step " ++ stepName ++ " (attempt " ++ toString (attempt + 1)
      ++ "/" ++ toString (cfg.maxRetries + 1) ++ ")" }

/-- The `step_retry_failed` event logged after a non-final failed
attempt. -/
def stepRetryFailedEvent (stepName : String) (attempt : Nat) (e : PyErr) : AuditEvent :=
  { eventType := "step_retry_failed",
    note := "Step " ++ stepName ++ " attempt " ++ toString (attempt + 1)
      ++ " failed: " ++ e.msg }

/-- The `step_max_retries_exceeded` event logged when the final
attempt fails. -/
def maxRetriesEvent (cfg : OrchCfg) (stepName : String) : AuditEvent :=
  { eventType := "step_max_retries_exceeded",
    note := "Step " ++ stepName ++ " failed after "
      ++ toString (cfg.maxRetries + 1) ++ " attempts" }

/-- Embeds the `for attempt in range(self.max_retries + 1)` loop body
of `_execute_step_with_retry`, starting at iteration `attempt` with
`fuel` iterations remaining (`fuel = max_retries + 1 - attempt` at
every real call).  The attempt's step outcome and duration are
`runs attempt` / `durs attempt`.  The `fuel = 0` base case is
unreachable from `executeStepWithRetry` because every loop iteration
either returns or re-raises. -/
def retryFrom (cfg : OrchCfg) (stepName : String)
    (runs : Nat → Except PyErr α) (durs : Nat → Rat)
    (stepCount : Nat) (attempt : Nat) : Nat → RetryOut α
  | 0 =>
    { result := .error (.runtimeError "retry loop exhausted"),
      stepCount := stepCount, events := [], sleeps := [],
      attemptNames := [], invocations := 0 }
  | fuel + 1 =>
    let preEvents := if attempt > 0 then [stepRetryEvent cfg stepName attempt] else []
    let preSleeps := if attempt > 0 then [cfg.baseBackoffSec * 2 ^ (attempt - 1)] else []
    let aname := stepName ++ "_attempt_" ++ toString (attempt + 1)
    let so := executeStep cfg stepCount aname (runs attempt) (durs attempt)
    let inv := if so.invoked then 1 else 0
    match so.result with
    | .ok a =>
      { result := .ok a, stepCount := so.stepCount,
        events := preEvents ++ so.events, sleeps := preSleeps,
        attemptNames := [aname], invocations := inv }
    | .error e =>
      if attempt < cfg.maxRetries then
        let rest := retryFrom cfg stepName runs durs so.stepCount (attempt + 1) fuel
        { result := rest.result, stepCount := rest.stepCount,
          events := preEvents ++ so.events
            ++ [stepRetryFailedEvent stepName attempt e] ++ rest.events,
          sleeps := preSleeps ++ rest.sleeps,
          attemptNames := aname :: rest.attemptNames,
          invocations := inv + rest.invocations }
      else
        { result := .error e, stepCount := so.stepCount,
          events := preEvents ++ so.events ++ [maxRetriesEvent cfg stepName],
          sleeps := preSleeps, attemptNames := [aname], invocations := inv }

/-- Embeds `Orchestrator._execute_step_with_retry`.  A non-retryable
step delegates directly to `_execute_step` under the unsuffixed name;
a retryable one enters the attempt loop. -/
def executeStepWithRetry (cfg : OrchCfg) (stepName : String) (retryable : Bool)
    (runs : Nat → Except PyErr α) (durs : Nat → Rat) (stepCount : Nat) : RetryOut α :=
  if retryable then
    retryFrom cfg stepName runs durs stepCount 0 (cfg.maxRetries + 1)
  else
    let so := executeStep cfg stepCount stepName (runs 0) (durs 0)
    { result := so.result, stepCount := so.stepCount, events := so.events,
      sleeps := [], attemptNames := [stepName],
      invocations := if so.invoked then 1 else 0 }

/-- Embeds `PackType.<member>.value`. -/
def MPackType.value : MPackType → String
  | .balanced => "balanced"
  | .deep => "deep"
  | .both => "both"

/-- Embeds `Orchestrator._run_agent`, with the registry's behaviour
for this run supplied as a map from agent name to the outcome of
`agent.run(ctx, spec, blackboard)` (the agents are stateless
black-box collaborators).  Faithful to the source order: all returned
artifacts are appended to the blackboard and `updated_spec` is
adopted *before* the status is interpreted; the status check compares
the (string-valued) `output.status` with the enum member
`Status.FAIL` using Python `==`.  The first component is the returned
spec or the raised exception; the second is the blackboard after the
call (mutations persist even when an exception is raised). -/
def runAgent (agents : String → Except PyErr MAgentOutput) (agentName : String)
    (spec : MSourceSpec) (blackboard : List MArtifact) :
    Except PyErr MSourceSpec × List MArtifact :=
  match agents agentName with
  | .error e => (.error e, blackboard)
  | .ok out =>
    let bb := blackboard ++ out.artifacts
    let spec' := match out.updatedSpec with
      | some s => s
      | none => spec
    if statusValEq out.status (.pyEnum .fail) then
      (.error (.runtimeError ("Agent " ++ agentName ++ " failed")), bb)
    else
      (.ok spec', bb)

/-- The orchestrator-side run state threaded through one pipeline
invocation: the current spec, the shared blackboard, the step
counter, the audit-event list, and (for observability) the sequence
of `agent.run` invocations actually made. -/
structure PipeState where
  spec : MSourceSpec
  blackboard : List MArtifact
  stepCount : Nat
  events : List AuditEvent
  agentCalls : List String
deriving DecidableEq

/-- Appends one audit event (`audit_log.log_event`). -/
def addEvent (st : PipeState) (ev : AuditEvent) : PipeState :=
  { st with events := st.events ++ [ev] }

/-- A `state_enter` audit event. -/
def stateEnterEvent (note : String) : AuditEvent :=
  { eventType := "state_enter", note := note }

/-- The `state_skip` audit event logged by the research guard. -/
def stateSkipEvent : AuditEvent :=
  { eventType := "state_skip", note := "Skipping Research state (offline guard)" }

/-- One pipeline stage that invokes a single agent through
`_execute_step_with_retry` (non-retryable stages pass
`retryable=false`, delegating straight to `_execute_step`).  Every
attempt re-invokes `agent.run`, which re-applies the agent's
blackboard mutation; the agent's returned outcome does not depend on
the blackboard, so each attempt's step outcome is the same value. -/
def runAgentStage (cfg : OrchCfg) (agents : String → Except PyErr MAgentOutput)
    (stepName agentName : String) (retryable : Bool) (dur : Rat)
    (st : PipeState) : Except PyErr MSourceSpec × PipeState :=
  let res := (runAgent agents agentName st.spec st.blackboard).1
  let ro := executeStepWithRetry cfg stepName retryable (fun _ => res) (fun _ => dur)
    st.stepCount
  let st' := { st with
    stepCount := ro.stepCount,
    events := st.events ++ ro.events,
    blackboard :=
      (fun b => (runAgent agents agentName st.spec b).2)^[ro.invocations] st.blackboard,
    agentCalls := st.agentCalls ++ List.replicate ro.invocations agentName }
  (ro.result, st')

/-- Embeds the `render_packs` stage: `_render_balanced_pack` catches
every exception internally (template rendering is non-critical), so
the wrapped step function always returns `None`; on a successful
render it adds the brief `DocumentArtifact` to the blackboard.  The
render outcome is supplied as `render` (`some` artifact on success,
`none` when the internal `except` swallowed a failure). -/
def runRenderStage (cfg : OrchCfg) (render : Option MArtifact) (dur : Rat)
    (st : PipeState) : Except PyErr Unit × PipeState :=
  let ro := executeStepWithRetry cfg "render_packs" true
    (fun _ => (.ok () : Except PyErr Unit)) (fun _ => dur) st.stepCount
  (ro.result,
    { st with
      stepCount := ro.stepCount,
      events := st.events ++ ro.events,
      blackboard := (fun b => b ++ render.toList)^[ro.invocations] st.blackboard })

/-- Sequencing of pipeline steps: an exception from an earlier step
propagates and aborts the rest (`run`'s `try` block). -/
def seqStep (r : Except PyErr Unit × PipeState)
    (f : PipeState → Except PyErr Unit × PipeState) : Except PyErr Unit × PipeState :=
  match r with
  | (.error e, st) => (.error e, st)
  | (.ok _, st) => f st

/-- Drops the spec returned by `_execute_step` for the stages whose
return value the source discards (every balanced/deep stage except
`frame_spec`). -/
def discardSpec (r : Except PyErr MSourceSpec × PipeState) :
    Except PyErr Unit × PipeState :=
  (r.1.map fun _ => (), r.2)

/-- The research guard of `_run_balanced_pipeline`:
`not ctx.offline and ctx.dials.audience_mode.value in ["balanced", "deep"]`. -/
def researchGuard (ctx : MRunContext) : Bool :=
  !ctx.offline &&
    (ctx.audienceMode.value == "balanced" || ctx.audienceMode.value == "deep")

/-- Embeds `Orchestrator._run_balanced_pipeline`. -/
def runBalancedBody (cfg : OrchCfg) (agents : String → Except PyErr MAgentOutput)
    (ctx : MRunContext) (render : Option MArtifact) (durOf : String → Rat)
    (st : PipeState) : Except PyErr Unit × PipeState :=
  let r1 :=
    if researchGuard ctx then
      let st := addEvent st (stateEnterEvent "Entering Research state")
      discardSpec (runAgentStage cfg agents "research_content" "librarian" true
        (durOf "research_content") st)
    else
      (.ok (), addEvent st stateSkipEvent)
  seqStep r1 fun st =>
  let st := addEvent st (stateEnterEvent "Entering SliceMVP state")
  let st := addEvent st (stateEnterEvent "Entering WritePRD state")
  seqStep (discardSpec (runAgentStage cfg agents "write_prd" "prd_writer" false
      (durOf "write_prd") st)) fun st =>
  let st := addEvent st (stateEnterEvent "Entering GenDiagrams state")
  seqStep (discardSpec (runAgentStage cfg agents "generate_diagrams" "diagrammer" false
      (durOf "generate_diagrams") st)) fun st =>
  let st := addEvent st (stateEnterEvent "Entering TestPlan state")
  seqStep (discardSpec (runAgentStage cfg agents "design_tests" "qa_architect" false
      (durOf "design_tests") st)) fun st =>
  let st := addEvent st (stateEnterEvent "Entering Roadmap state")
  seqStep (discardSpec (runAgentStage cfg agents "create_roadmap" "roadmapper" false
      (durOf "create_roadmap") st)) fun st =>
  let st := addEvent st (stateEnterEvent "Entering RedTeam state")
  let st := addEvent st (stateEnterEvent "Entering RenderPacks state")
  runRenderStage cfg render (durOf "render_packs") st

/-- The deep-pipeline stage table of `_run_deep_pipeline`:
step name, agent name, and `state_enter` note. -/
def deepStages : List (String × String × String) :=
  [("generate_threat_model", "threat_model", "Generating threat model"),
   ("generate_accessibility_plan", "accessibility", "Generating accessibility plan"),
   ("generate_observability_plan", "observability", "Generating observability plan"),
   ("generate_runbooks", "runbook", "Generating operational runbooks"),
   ("generate_slos", "slo", "Generating SLO documentation"),
   ("generate_adrs", "adr", "Generating ADR templates"),
   ("generate_ci_workflow", "ci_workflow", "Generating CI workflows"),
   ("generate_contracts", "contract", "Generating contract schemas")]

/-- Embeds `Orchestrator._run_deep_pipeline`. -/
def runDeepBody (cfg : OrchCfg) (agents : String → Except PyErr MAgentOutput)
    (durOf : String → Rat) (st : PipeState) : Except PyErr Unit × PipeState :=
  let st := addEvent st (stateEnterEvent "Entering Deep pack pipeline")
  deepStages.foldl
    (fun r stage =>
      seqStep r fun st =>
        let st := addEvent st (stateEnterEvent stage.2.2)
        discardSpec (runAgentStage cfg agents stage.1 stage.2.1 false
          (durOf stage.1) st))
    (.ok (), st)

/-- The `pipeline_start` event. -/
def pipelineStartEvent (pack : MPackType) : AuditEvent :=
  { eventType := "pipeline_start",
    note := "Starting " ++ pack.value ++ " pack generation",
    stage := "pipeline", event := "start" }

/-- The `pipeline_complete` event. -/
def pipelineCompleteEvent (n : Nat) : AuditEvent :=
  { eventType := "pipeline_complete",
    note := "Generated " ++ toString n ++ " artifacts" }

/-- The `pipeline_error` event. -/
def pipelineErrorEvent (e : PyErr) : AuditEvent :=
  { eventType := "pipeline_error", note := "Pipeline failed: " ++ e.msg }

/-- Outcome of `Orchestrator.run`: the published artifact list of the
returned `ArtifactIndex`, or the re-raised exception, together with
the final run state (the audit log saved in the `finally` block is
`state.events`). -/
structure RunOutcome where
  result : Except PyErr (List MArtifact)
  state : PipeState
deriving DecidableEq

/-- Embeds `Orchestrator.run` up to (excluding) the final
`package_outputs` step.  `validate_spec` is modelled by the schema
validator's verdict carried on the spec (the validator is an external
collaborator); on a `False` verdict the step function raises
`ValueError`.  `frame_spec` threads the agent-updated spec into every
later stage.  The balanced body runs for packs `balanced`/`both`, the
deep body for `deep`/`both`. -/
def validateAndFrame (cfg : OrchCfg) (agents : String → Except PyErr MAgentOutput)
    (spec0 : MSourceSpec) (pack : MPackType) (durOf : String → Rat) :
    Except PyErr Unit × PipeState :=
  let st0 : PipeState :=
    { spec := spec0, blackboard := [], stepCount := 0,
      events := [pipelineStartEvent pack], agentCalls := [] }
  let vres : Except PyErr Unit :=
    if spec0.schemaOk then .ok () else .error (.valueError "Spec validation failed")
  let so := executeStep cfg st0.stepCount "validate_spec" vres (durOf "validate_spec")
  let r1 : Except PyErr Unit × PipeState :=
    (so.result, { st0 with stepCount := so.stepCount, events := st0.events ++ so.events })
  seqStep r1 fun st =>
    let fr := runAgentStage cfg agents "frame_spec" "framer" false (durOf "frame_spec") st
    match fr.1 with
    | .ok s => (.ok (), { fr.2 with spec := s })
    | .error e => (.error e, fr.2)

/-- Embeds the pack dispatch of `Orchestrator.run`: the balanced body
runs for packs `balanced`/`both`, the deep body for `deep`/`both`. -/
def orchestratorPrePackage (cfg : OrchCfg) (agents : String → Except PyErr MAgentOutput)
    (ctx : MRunContext) (spec0 : MSourceSpec) (pack : MPackType)
    (render : Option MArtifact) (durOf : String → Rat) : Except PyErr Unit × PipeState :=
  let r2 := validateAndFrame cfg agents spec0 pack durOf
  let r3 :=
    if pack = MPackType.balanced ∨ pack = MPackType.both then
      seqStep r2 (runBalancedBody cfg agents ctx render durOf)
    else r2
  if pack = MPackType.deep ∨ pack = MPackType.both then
    seqStep r3 (runDeepBody cfg agents durOf)
  else r3

/-- Embeds the tail of `Orchestrator.run`: after the pack-specific
pipelines, `package_outputs` always runs, then the blackboard is
published (success) or the `pipeline_error` event is appended and the
exception re-raised. -/
def orchestratorRun (cfg : OrchCfg) (agents : String → Except PyErr MAgentOutput)
    (ctx : MRunContext) (spec0 : MSourceSpec) (pack : MPackType)
    (render : Option MArtifact) (durOf : String → Rat) : RunOutcome :=
  let r5 := seqStep (orchestratorPrePackage cfg agents ctx spec0 pack render durOf) fun st =>
    discardSpec (runAgentStage cfg agents "package_outputs" "packager" false
      (durOf "package_outputs") st)
  match r5 with
  | (.ok _, st) =>
    { result := .ok st.blackboard,
      state := addEvent st (pipelineCompleteEvent st.blackboard.length) }
  | (.error e, st) =>
    { result := .error e, state := addEvent st (pipelineErrorEvent e) }

/-- Modelled digest: `hashlib.sha256(...).hexdigest()` abstracted as
a deterministic injective-free stand-in; every theorem below uses
only that the digest is a function of its input. -/
def sha256Hex (s : String) : String := "sha256:" ++ s

/-- Modelled archive content: the deterministic byte content of the
zip produced by `zipfile.ZipFile(...).write` over the given
(path, bytes) entries. -/
def zipEncode (entries : List (String × String)) : String :=
  entries.foldl (fun acc e => acc ++ e.1 ++ ":" ++ e.2 ++ ";") ""

/-- Result of `PackagerAgent.run`: the artifacts returned in the
`AgentOutput`, the blackboard artifact list after the in-place hash
mutations, and the paths written into the archive. -/
structure PackagerOut where
  artifacts : List MArtifact
  blackboard : List MArtifact
  zipped : List String
  status : StatusVal
deriving DecidableEq

/-- The loop body of the packager's hash pass:
`if artifact.path.exists() and artifact.sha256_hash is None:
artifact.calculate_hash()`. -/
def hashUpdate (fsExists : String → Bool) (fileBytes : String → String)
    (a : MArtifact) : MArtifact :=
  if fsExists a.path ∧ a.sha256Hash = none then
    { a with sha256Hash := some (sha256Hex (fileBytes a.path)) }
  else a

/-- Embeds `PackagerAgent.run` (`agents/base.py`).  When
`spec.export.bundle` holds it first computes the SHA-256 hash of
every blackboard artifact whose file exists and whose hash is still
unset, then writes every existing artifact into
`out_dir/output_bundle.zip` and returns the hashed `ZipArtifact`;
otherwise it is a no-op returning no artifacts.  The filesystem is
supplied as an existence predicate and a byte-content map. -/
def packagerRun (exportBundle : Bool) (bb : List MArtifact) (outDir : String)
    (fsExists : String → Bool) (fileBytes : String → String) : PackagerOut :=
  if exportBundle then
    let bb2 := bb.map (hashUpdate fsExists fileBytes)
    let zipped := (bb2.filter fun a => fsExists a.path).map (·.path)
    let zipArtifact : MArtifact :=
      { name := "output_bundle.zip", path := outDir ++ "/output_bundle.zip",
        sha256Hash :=
          some (sha256Hex (zipEncode (zipped.map fun p => (p, fileBytes p)))) }
    { artifacts := [zipArtifact], blackboard := bb2, zipped := zipped,
      status := .pyStr "ok" }
  else
    { artifacts := [], blackboard := bb, zipped := [], status := .pyStr "ok" }

/-- Generic association-list lookup (first matching key wins), used
to model keyed filesystem and in-memory dictionaries. -/
def alistLookup {κ β : Type} [BEq κ] (l : List (κ × β)) (k : κ) : Option β :=
  match l.find? (fun e => e.1 == k) with
  | some e => some e.2
  | none => none

/-- Removes every binding of `k`. -/
def alistErase {κ β : Type} [BEq κ] (l : List (κ × β)) (k : κ) : List (κ × β) :=
  l.filter (fun e => !(e.1 == k))

/-- Replaces the binding of `k` (atomic overwrite). -/
def alistInsert {κ β : Type} [BEq κ] (l : List (κ × β)) (k : κ) (v : β) :
    List (κ × β) :=
  alistErase l k ++ [(k, v)]

/-- Embeds `studio.cache.research_cache.CacheLevel`. -/
inductive CacheLevel where
  | searchResults
  | scrapedContent
  | embeddings
  | researchDocs
deriving DecidableEq

/-- Embeds `CacheLevel.<member>.value`. -/
def CacheLevel.value : CacheLevel → String
  | .searchResults => "search"
  | .scrapedContent => "content"
  | .embeddings => "embeddings"
  | .researchDocs => "research"

/-- The `ttl_settings` table of `ResearchCacheManager.__init__`, in
seconds: 24 hours, 7 days, 30 days, 14 days. -/
def ttlSeconds : CacheLevel → Rat
  | .searchResults => 86400
  | .scrapedContent => 604800
  | .embeddings => 2592000
  | .researchDocs => 1209600

/-- One on-disk cache file: either the well-formed JSON object
written by `set` (keys `cached_at`, `cache_level`, `identifier`,
`cache_key`, `data`) or an unparsable/corrupted file.  Timestamps are
seconds as exact rationals. -/
inductive CacheFile (α : Type) where
  | valid (cachedAt : Rat) (cacheLevel : String) (identifier : String)
      (cacheKey : String) (data : α)
  | corrupt
deriving DecidableEq

/-- The cache directory as a map from file path to file content. -/
abbrev CacheFS (α : Type) := List (String × CacheFile α)

/-- Embeds `ResearchCacheManager._cache_key`: the digest of
`f"{level.value}:{identifier}"`. -/
def cacheKeyOf (level : CacheLevel) (identifier : String) : String :=
  sha256Hex (level.value ++ ":" ++ identifier)

/-- Embeds `ResearchCacheManager._cache_path`: two sharding levels
from the first four characters of the key, then `{key}.json`. -/
def cachePathOf (cacheDir : String) (key : String) : String :=
  cacheDir ++ "/" ++ key.take 2 ++ "/" ++ (key.drop 2).take 2 ++ "/" ++ key ++ ".json"

/-- Embeds `ResearchCacheManager.get`: a missing file is a miss; a
corrupted file is removed and is a miss; an entry older than the
level's TTL (`datetime.now() - cached_at > ttl`, strict) is removed
and is a miss; otherwise the stored payload is returned.  Returns the
value together with the cache directory after the read. -/
def cacheGet (cacheDir : String) (fs : CacheFS α) (now : Rat) (level : CacheLevel)
    (identifier : String) : Option α × CacheFS α :=
  let path := cachePathOf cacheDir (cacheKeyOf level identifier)
  match alistLookup fs path with
  | none => (none, fs)
  | some .corrupt => (none, alistErase fs path)
  | some (.valid cachedAt _ _ _ data) =>
    if now - cachedAt > ttlSeconds level then (none, alistErase fs path)
    else (some data, fs)

/-- Embeds `ResearchCacheManager.set` on the success path (the
temp-file write plus atomic rename is an atomic overwrite of the
final path): stores the timestamped entry and returns `True`. -/
def cacheSet (cacheDir : String) (fs : CacheFS α) (now : Rat) (level : CacheLevel)
    (identifier : String) (data : α) : Bool × CacheFS α :=
  let key := cacheKeyOf level identifier
  let path := cachePathOf cacheDir key
  (true, alistInsert fs path (.valid now level.value identifier key data))

/-- Python `str.strip()` on a line (ASCII whitespace). -/
def pyStrip (l : List Char) : List Char :=
  ((l.dropWhile Char.isWhitespace).reverse.dropWhile Char.isWhitespace).reverse

/-- Python `str.split('\n')`. -/
def splitOnNl : List Char → List (List Char)
  | [] => [[]]
  | c :: rest =>
    match splitOnNl rest with
    | [] => [[]]
    | line :: more =>
      if c = '\n' then [] :: line :: more else (c :: line) :: more

/-- Python `line.split(':', 1)[1]` for a line known to contain a
colon: everything after the first colon. -/
def afterFirstColon (l : List Char) : List Char :=
  (l.dropWhile (fun c => !(c == ':'))).drop 1

/-- Embeds the robots.txt parsing loop of
`ContentGuard._check_robots_txt`: walks the stripped lines, tracking
whether the current `User-agent` section is `*`, and collects the
non-empty `Disallow:` paths of `*` sections. -/
def robotsDisallows (body : List Char) : List (List Char) :=
  ((splitOnNl body).foldl
    (fun st rawLine =>
      let line := pyStrip rawLine
      if ("User-agent:".toList).isPrefixOf line then
        (pyStrip (afterFirstColon line) == "*".toList, st.2)
      else if ("Disallow:".toList).isPrefixOf line && st.1 then
        let p := pyStrip (afterFirstColon line)
        if p ≠ [] then (st.1, st.2 ++ [p]) else st
      else st)
    ((false, []) : Bool × List (List Char))).2

/-- A URL as `urllib.parse.urlparse` decomposes it (plus the raw
string used in error messages). -/
structure MUrl where
  raw : List Char
  scheme : List Char
  netloc : List Char
  path : List Char
deriving DecidableEq

/-- The `f"{parsed.scheme}://{parsed.netloc}"` domain key. -/
def domainOf (u : MUrl) : List Char :=
  u.scheme ++ "://".toList ++ u.netloc

/-- Outcome of `requests.get(f"{domain}/robots.txt", timeout=5)`:
a status code with body, or a raised exception. -/
inductive RobotsResp where
  | status (code : Nat) (body : List Char)
  | exn
deriving DecidableEq

/-- The `ContentGuard.__init__` configuration. -/
structure GuardCfg where
  respectRobotsTxt : Bool := true
  maxDocTokens : Nat := 8000
  maxDocsPerDomain : Nat := 3
deriving DecidableEq

/-- The mutable `ContentGuard` state: per-domain request counters
(`defaultdict(int)`) and the per-domain robots verdict cache. -/
structure GuardState where
  domainRequestCount : List (List Char × Nat) := []
  robotsCache : List (List Char × Bool) := []
deriving DecidableEq

/-- `self.domain_request_count[domain]` with the defaultdict zero. -/
def domainCount (g : GuardState) (domain : List Char) : Nat :=
  (alistLookup g.domainRequestCount domain).getD 0

/-- Embeds `ContentGuard._check_robots_txt`, with the network
response for each domain supplied by `env`.  The verdict for the
*first* URL checked on a domain is computed from that URL's path and
cached under `f"{domain}:robots"`; every later call for the domain
returns the cached verdict without consulting `env` or the new path.
A non-200 response or a fetch exception is fail-open (allow, cached). -/
def checkRobotsTxt (g : GuardState) (env : List Char → RobotsResp)
    (domain : List Char) (url : MUrl) : Bool × GuardState :=
  let ck := domain ++ ":robots".toList
  match alistLookup g.robotsCache ck with
  | some v => (v, g)
  | none =>
    let cacheIt := fun v => { g with robotsCache := alistInsert g.robotsCache ck v }
    match env domain with
    | .exn => (true, cacheIt true)
    | .status code body =>
      if code = 200 then
        if (robotsDisallows body).any (fun p => p.isPrefixOf url.path) then
          (false, cacheIt false)
        else (true, cacheIt true)
      else (true, cacheIt true)

/-- Embeds `ContentGuard.check_url_allowed`: raises `ValueError` when
the domain has reached its quota, then (when robots checking is
enabled) raises `ValueError` when the robots verdict denies the URL;
otherwise returns `True`.  The state after the call is returned even
when an exception is raised (the robots cache mutation persists). -/
def checkUrlAllowed (cfg : GuardCfg) (g : GuardState) (env : List Char → RobotsResp)
    (url : MUrl) : Except PyErr Bool × GuardState :=
  let domain := domainOf url
  if domainCount g domain ≥ cfg.maxDocsPerDomain then
    (.error (.valueError ("Domain limit exceeded: " ++ String.mk domain
      ++ " (max " ++ toString cfg.maxDocsPerDomain ++ ")")), g)
  else if cfg.respectRobotsTxt then
    let rc := checkRobotsTxt g env domain url
    if rc.1 then (.ok true, rc.2)
    else (.error (.valueError ("URL blocked by robots.txt: " ++ String.mk url.raw)), rc.2)
  else (.ok true, g)

/-- Embeds `ContentGuard.record_successful_fetch`. -/
def recordSuccessfulFetch (g : GuardState) (url : MUrl) : GuardState :=
  let domain := domainOf url
  { g with domainRequestCount :=
      alistInsert g.domainRequestCount domain (domainCount g domain + 1) }

/-- The visible truncation marker appended by `check_content_size`:
`f"\n\n[Content truncated at {self.max_doc_tokens} tokens]"`. -/
def truncMarker (maxDocTokens : Nat) : List Char :=
  ("\n\n[Content truncated at " ++ toString maxDocTokens ++ " tokens]").toList

/-- Python `str.rfind(c)`: highest index of `c`, `-1` when absent. -/
def pyRfind : List Char → Char → Int
  | [], _ => -1
  | x :: xs, c =>
    let r := pyRfind xs c
    if r ≥ 0 then r + 1
    else if x = c then 0 else -1

/-- Embeds `ContentGuard.check_content_size`.  The token estimate is
`len(content) // 4`.  The sentence-boundary test
`last_period > max_chars * 0.8` mixes an int with a float; for all
feasible operand sizes (well below `2^50`) the float comparison
agrees with the exact rational one, embedded here as
`last_period * 5 > max_chars * 4`. -/
def checkContentSize (maxDocTokens : Nat) (content : List Char) : List Char :=
  let estimatedTokens := content.length / 4
  if estimatedTokens > maxDocTokens then
    let maxChars := maxDocTokens * 4
    let truncated := content.take maxChars
    let lastPeriod := pyRfind truncated '.'
    let truncated2 :=
      if lastPeriod * 5 > (maxChars : Int) * 4 then
        truncated.take (lastPeriod + 1).toNat
      else truncated
    truncated2 ++ truncMarker maxDocTokens
  else content

/-- Helper: an `ok` step outcome implies the budget check passed, the
step function was invoked, and the counter advanced by exactly one. -/
lemma executeStep_ok_inv {α : Type} (cfg : OrchCfg) (sc : Nat) (stepName : String)
    (run : Except PyErr α) (dur : Rat) (a : α)
    (h : (executeStep cfg sc stepName run dur).result = .ok a) :
    sc < cfg.stepBudget ∧ (executeStep cfg sc stepName run dur).invoked = true ∧
    (executeStep cfg sc stepName run dur).stepCount = sc + 1 := by
  by_cases hb : sc ≥ cfg.stepBudget
  · simp [executeStep, hb] at h
  · cases run with
    | ok b =>
      by_cases ht : dur > (cfg.timeoutPerStepSec : Rat)
      · simp [executeStep, hb, ht] at h
      · simp [executeStep, hb, ht] at h ⊢; omega
    | error e => simp [executeStep, hb] at h

/-- Helper: a failed step leaves the counter unchanged. -/
lemma executeStep_error_stepCount {α : Type} (cfg : OrchCfg) (sc : Nat) (stepName : String)
    (run : Except PyErr α) (dur : Rat) (e : PyErr)
    (h : (executeStep cfg sc stepName run dur).result = .error e) :
    (executeStep cfg sc stepName run dur).stepCount = sc := by
  by_cases hb : sc ≥ cfg.stepBudget
  · simp [executeStep, hb]
  · cases run with
    | ok b =>
      by_cases ht : dur > (cfg.timeoutPerStepSec : Rat)
      · simp [executeStep, hb, ht]
      · simp [executeStep, hb, ht] at h
    | error e' => simp [executeStep, hb]

/-- C7: a step function that runs to completion but whose measured
wall-clock duration exceeds the per-step timeout is turned into a
`StepTimeoutException` after the fact: the function was invoked
(post-hoc detection, no preemption), the caller receives the timeout
error rather than the computed result, and the overrun is logged as a
`step_error`. -/
theorem step_timeout_detected_post_hoc (cfg : OrchCfg) (sc : Nat) (stepName : String)
    {α : Type} (a : α) (dur : Rat)
    (hsc : sc < cfg.stepBudget) (hdur : (cfg.timeoutPerStepSec : Rat) < dur) :
    (executeStep cfg sc stepName (Except.ok a) dur).invoked = true ∧
    (executeStep cfg sc stepName (Except.ok a) dur).result =
      Except.error (PyErr.stepTimeout ("Step " ++ stepName ++ " exceeded timeout of "
        ++ toString cfg.timeoutPerStepSec ++ "s")) ∧
    (∀ b : α, (executeStep cfg sc stepName (Except.ok a) dur).result ≠ Except.ok b) ∧
    (executeStep cfg sc stepName (Except.ok a) dur).events =
      [stepStartEvent stepName,
       stepErrorEvent stepName (PyErr.stepTimeout ("Step " ++ stepName
         ++ " exceeded timeout of " ++ toString cfg.timeoutPerStepSec ++ "s")) dur] := by
  have hb : ¬ sc ≥ cfg.stepBudget := not_le.mpr hsc
  simp [executeStep, hb, hdur]

/-- Witness for C7 at a concrete input: budget 12, counter 0, a step
that returned `0` after 61 measured seconds against the 60s default
timeout. -/
theorem step_timeout_detected_post_hoc_witness :
    (executeStep defaultCfg 0 "research_content" (Except.ok (0 : Nat)) 61).result =
      Except.error (PyErr.stepTimeout "Step research_content exceeded timeout of 60s") := by
  have h := (step_timeout_detected_post_hoc defaultCfg 0 "research_content" (0 : Nat) 61
    (by norm_num [defaultCfg]) (by norm_num [defaultCfg])).2.1
  simpa [defaultCfg] using h

/-- C6 counterexample: the invocation refused by the budget guard
(counter 12 against the default budget 12) raises before
`log_event("step_start", ...)` is reached and outside the `try`
block, so it emits zero audit events — not a start/error pair. -/
theorem budget_refused_step_logs_nothing :
    (executeStep defaultCfg 12 "write_prd" (Except.ok (0 : Nat)) 1).result =
      Except.error (PyErr.budgetExceeded "Step budget of 12 exceeded") ∧
    (executeStep defaultCfg 12 "write_prd" (Except.ok (0 : Nat)) 1).events = [] := by
  decide

/-- C6 amended: every Step Executor invocation that passes the budget
check emits exactly one pair of audit events — a `step_start`
followed by either a `step_complete` (with duration and stage name)
or a `step_error` (with duration, error message, severity "error") —
while the invocation refused because the counter has reached the
budget emits no audit events at all. -/
theorem step_audit_pair_amended (cfg : OrchCfg) (sc : Nat) (stepName : String)
    {α : Type} (run : Except PyErr α) (dur : Rat) :
    (sc < cfg.stepBudget →
      ∃ ev, (executeStep cfg sc stepName run dur).events = [stepStartEvent stepName, ev] ∧
        ((ev.eventType = "step_complete" ∧ ev.stage = stepName ∧
            ev.durationMs = some (dur * 1000).floor ∧ ev.detailsDurationSec = some dur) ∨
         (ev.eventType = "step_error" ∧ ev.level = "error" ∧ ev.stage = stepName ∧
            ev.durationMs = some (dur * 1000).floor ∧ ev.detailsError ≠ none))) ∧
    (cfg.stepBudget ≤ sc → (executeStep cfg sc stepName run dur).events = []) := by
  constructor
  · intro hsc
    have hb : ¬ sc ≥ cfg.stepBudget := not_le.mpr hsc
    cases run with
    | ok a =>
      by_cases ht : dur > (cfg.timeoutPerStepSec : Rat)
      · exact ⟨stepErrorEvent stepName (PyErr.stepTimeout ("Step " ++ stepName
            ++ " exceeded timeout of " ++ toString cfg.timeoutPerStepSec ++ "s")) dur,
          by simp [executeStep, hb, ht], Or.inr (by simp [stepErrorEvent])⟩
      · exact ⟨stepCompleteEvent stepName dur,
          by simp [executeStep, hb, ht], Or.inl (by simp [stepCompleteEvent])⟩
    | error e =>
      exact ⟨stepErrorEvent stepName e dur,
        by simp [executeStep, hb], Or.inr (by simp [stepErrorEvent])⟩
  · intro h
    simp [executeStep, h]

/-- Witness for C6 (amended) at a concrete input: a successful step
under budget emits the start/complete pair, and the budget-refused
invocation emits nothing. -/
theorem step_audit_pair_amended_witness :
    ((0 : Nat) < defaultCfg.stepBudget ∧
      ∃ ev, (executeStep defaultCfg 0 "s" (Except.ok (0 : Nat)) 1).events =
        [stepStartEvent "s", ev]) ∧
    (executeStep defaultCfg 12 "s" (Except.ok (0 : Nat)) 1).events = [] := by
  refine ⟨⟨by decide, ?_⟩, ?_⟩
  · obtain ⟨ev, hev, -⟩ :=
      (step_audit_pair_amended defaultCfg 0 "s" (Except.ok (0 : Nat)) 1).1 (by decide)
    exact ⟨ev, hev⟩
  · exact (step_audit_pair_amended defaultCfg 12 "s" (Except.ok (0 : Nat)) 1).2 (by decide)

/-- C2 counterexample: with the default configuration, a permanently
failing retryable step makes four attempts (four step-function
invocations by the retry wrapper) yet the step counter stays at 0 —
failed attempts do not consume step-budget slots. -/
theorem retry_attempts_consume_no_budget :
    (executeStepWithRetry defaultCfg "research_content" true
        (fun _ => (Except.error (PyErr.runtimeError "boom") : Except PyErr Unit))
        (fun _ => 1) 0).invocations = 4 ∧
    (executeStepWithRetry defaultCfg "research_content" true
        (fun _ => (Except.error (PyErr.runtimeError "boom") : Except PyErr Unit))
        (fun _ => 1) 0).stepCount = 0 := by
  decide

/-- C2 amended: once the counter has reached the budget the executor
refuses to run the step function at all (raising the
budget-exceeded error with no partial execution), and only a
*successful* invocation consumes a step-budget slot — any failed
invocation (agent exception, post-hoc timeout, or budget refusal,
including every failed retry attempt) leaves the counter unchanged. -/
theorem step_budget_amended (cfg : OrchCfg) (sc : Nat) (stepName : String)
    {α : Type} (run : Except PyErr α) (dur : Rat) :
    (cfg.stepBudget ≤ sc →
      (executeStep cfg sc stepName run dur).invoked = false ∧
      (executeStep cfg sc stepName run dur).result =
        Except.error (PyErr.budgetExceeded
          ("Step budget of " ++ toString cfg.stepBudget ++ " exceeded"))) ∧
    (∀ a : α, (executeStep cfg sc stepName run dur).result = .ok a →
      (executeStep cfg sc stepName run dur).stepCount = sc + 1) ∧
    (∀ e : PyErr, (executeStep cfg sc stepName run dur).result = .error e →
      (executeStep cfg sc stepName run dur).stepCount = sc) := by
  refine ⟨fun h => by simp [executeStep, h], fun a ha => ?_, fun e he => ?_⟩
  · exact (executeStep_ok_inv cfg sc stepName run dur a ha).2.2
  · exact executeStep_error_stepCount cfg sc stepName run dur e he

/-- Witness for C2 (amended) at concrete inputs: the budget-refusal,
success, and failure shapes of the counter behaviour. -/
theorem step_budget_amended_witness :
    (executeStep defaultCfg 12 "s" (Except.ok (0 : Nat)) 1).invoked = false ∧
    (executeStep defaultCfg 3 "s" (Except.ok (0 : Nat)) 1).stepCount = 4 ∧
    (executeStep defaultCfg 3 "s"
      (Except.error (PyErr.runtimeError "x") : Except PyErr Nat) 1).stepCount = 3 := by
  refine ⟨((step_budget_amended defaultCfg 12 "s" (Except.ok (0 : Nat)) 1).1 (by decide)).1,
    (step_budget_amended defaultCfg 3 "s" (Except.ok (0 : Nat)) 1).2.1 0 (by decide),
    (step_budget_amended defaultCfg 3 "s"
      (Except.error (PyErr.runtimeError "x") : Except PyErr Nat) 1).2.2
      (PyErr.runtimeError "x") (by decide)⟩

/-- Specification helper: the step names of the attempts numbered
`attempt+1, attempt+2, ...` (`n` of them). -/
def attemptNameList (stepName : String) (attempt : Nat) : Nat → List String
  | 0 => []
  | n + 1 =>
    (stepName ++ "_attempt_" ++ toString (attempt + 1))
      :: attemptNameList stepName (attempt + 1) n

/-- Specification helper: the backoff amounts slept before attempts
`attempt+1, attempt+2, ...` (`n` of them). -/
def backoffList (base attempt : Nat) : Nat → List Nat
  | 0 => []
  | n + 1 => base * 2 ^ (attempt - 1) :: backoffList base (attempt + 1) n

lemma attemptNameList_eq_range (stepName : String) :
    ∀ n a, attemptNameList stepName a n =
      (List.range n).map (fun k => stepName ++ "_attempt_" ++ toString (a + k + 1)) := by
  intro n
  induction n with
  | zero => intro a; simp [attemptNameList]
  | succ m ih =>
    intro a
    rw [attemptNameList, List.range_succ_eq_map, List.map_cons, List.map_map, ih (a + 1)]
    refine congrArg₂ _ (by simp) (List.map_congr_left fun k _ => ?_)
    show _ = stepName ++ "_attempt_" ++ toString (a + (k + 1) + 1)
    rw [show a + (k + 1) + 1 = a + 1 + k + 1 from by omega]

lemma backoffList_eq_range (base : Nat) :
    ∀ n a, backoffList base (a + 1) n =
      (List.range n).map (fun k => base * 2 ^ (a + k)) := by
  intro n
  induction n with
  | zero => intro a; simp [backoffList]
  | succ m ih =>
    intro a
    rw [backoffList, List.range_succ_eq_map, List.map_cons, List.map_map, ih (a + 1)]
    refine congrArg₂ _ (by simp) (List.map_congr_left fun k _ => ?_)
    show _ = base * 2 ^ (a + (k + 1))
    rw [show a + (k + 1) = a + 1 + k from by omega]

/-- Helper: the full shape of a failing `_execute_step` call under an
open budget. -/
lemma executeStep_error_eval {α : Type} (cfg : OrchCfg) (sc : Nat) (stepName : String)
    (e : PyErr) (dur : Rat) (hsc : sc < cfg.stepBudget) :
    executeStep cfg sc stepName (Except.error e : Except PyErr α) dur =
      { result := .error e, stepCount := sc,
        events := [stepStartEvent stepName, stepErrorEvent stepName e dur],
        invoked := true } := by
  simp [executeStep, not_le.mpr hsc]

/-- Helper: the retry loop from iteration `attempt ≥ 1` onward, when
every attempt fails and the budget stays open, makes one attempt per
remaining iteration, leaves the counter unchanged, and ends with the
last attempt's own exception. -/
lemma retryFrom_all_fail {α : Type} (cfg : OrchCfg) (stepName : String)
    (runs : Nat → Except PyErr α) (durs : Nat → Rat) (es : Nat → PyErr) (sc : Nat)
    (herr : ∀ k, runs k = Except.error (es k)) (hsc : sc < cfg.stepBudget) :
    ∀ fuel attempt, attempt + (fuel + 1) = cfg.maxRetries + 1 → 1 ≤ attempt →
      (retryFrom cfg stepName runs durs sc attempt (fuel + 1)).result
          = Except.error (es cfg.maxRetries) ∧
      (retryFrom cfg stepName runs durs sc attempt (fuel + 1)).stepCount = sc ∧
      (retryFrom cfg stepName runs durs sc attempt (fuel + 1)).attemptNames
          = attemptNameList stepName attempt (fuel + 1) ∧
      (retryFrom cfg stepName runs durs sc attempt (fuel + 1)).sleeps
          = backoffList cfg.baseBackoffSec attempt (fuel + 1) ∧
      (retryFrom cfg stepName runs durs sc attempt (fuel + 1)).invocations = fuel + 1 := by
  intro fuel
  induction fuel with
  | zero =>
    intro attempt hsum hge
    have hatt : attempt = cfg.maxRetries := by omega
    subst hatt
    have hlast : ¬ cfg.maxRetries < cfg.maxRetries := by omega
    have hpos : 0 < cfg.maxRetries := by omega
    rw [retryFrom]
    rw [herr cfg.maxRetries, executeStep_error_eval cfg sc _ _ _ hsc]
    simp [hlast, hpos, attemptNameList, backoffList]
  | succ n ih =>
    intro attempt hsum hge
    have hlt : attempt < cfg.maxRetries := by omega
    have hpos : 0 < attempt := hge
    have hrest := ih (attempt + 1) (by omega) (by omega)
    rw [retryFrom]
    rw [herr attempt, executeStep_error_eval cfg sc _ _ _ hsc]
    simp [hpos, hlt, hrest.1, hrest.2.1, hrest.2.2.1, hrest.2.2.2.1, hrest.2.2.2.2,
      attemptNameList, backoffList]
    omega

/-- C3: a retryable step whose step function fails on every
invocation is attempted exactly `max_retries + 1` times under step
names `"{name}_attempt_1"` through `"{name}_attempt_{N+1}"`, sleeps
`T, 2T, 4T, ..., T*2^(N-1)` seconds between consecutive attempts (no
sleep before the first — the backoff list has one entry per gap), and
finally re-raises the exception of the last attempt itself, not a
wrapper exception. -/
theorem retry_exhaustion_deterministic (cfg : OrchCfg) (stepName : String) {α : Type}
    (runs : Nat → Except PyErr α) (durs : Nat → Rat) (es : Nat → PyErr) (sc : Nat)
    (herr : ∀ k, runs k = Except.error (es k)) (hsc : sc < cfg.stepBudget) :
    (executeStepWithRetry cfg stepName true runs durs sc).attemptNames =
      (List.range (cfg.maxRetries + 1)).map
        (fun k => stepName ++ "_attempt_" ++ toString (k + 1)) ∧
    (executeStepWithRetry cfg stepName true runs durs sc).invocations =
      cfg.maxRetries + 1 ∧
    (executeStepWithRetry cfg stepName true runs durs sc).sleeps =
      (List.range cfg.maxRetries).map (fun k => cfg.baseBackoffSec * 2 ^ k) ∧
    (executeStepWithRetry cfg stepName true runs durs sc).result =
      Except.error (es cfg.maxRetries) := by
  have hnames : ∀ n, (List.range n).map
      (fun k => stepName ++ "_attempt_" ++ toString (0 + k + 1)) =
      (List.range n).map (fun k => stepName ++ "_attempt_" ++ toString (k + 1)) := by
    intro n
    exact List.map_congr_left fun k _ => by rw [Nat.zero_add]
  rw [executeStepWithRetry, if_pos rfl]
  rw [retryFrom]
  rw [herr 0, executeStep_error_eval cfg sc _ _ _ hsc]
  cases hm : cfg.maxRetries with
  | zero =>
    simp [hm, List.range_succ_eq_map]
  | succ m =>
    have hrest := retryFrom_all_fail cfg stepName runs durs es sc herr hsc m 1
      (by omega) (by omega)
    simp only [hm] at hrest ⊢
    simp [hrest.1, hrest.2.1, hrest.2.2.1, hrest.2.2.2.1, hrest.2.2.2.2,
      attemptNameList_eq_range, backoffList_eq_range, hnames,
      List.range_succ_eq_map, List.map_map, Function.comp]
    refine ⟨fun a _ => ?_, by omega⟩
    rw [show 1 + (a + 1) + 1 = a + 1 + 1 + 1 from by omega]

/-- Witness for C3 at the default configuration (3 retries, base
backoff 2s): four suffixed attempts, sleeps 2, 4, 8, and the fourth
attempt's own exception re-raised. -/
theorem retry_exhaustion_deterministic_witness :
    (executeStepWithRetry defaultCfg "research_content" true
        (fun k => (Except.error (PyErr.runtimeError ("boom" ++ toString k))
          : Except PyErr Unit)) (fun _ => 1) 0).attemptNames =
      ["research_content_attempt_1", "research_content_attempt_2",
       "research_content_attempt_3", "research_content_attempt_4"] ∧
    (executeStepWithRetry defaultCfg "research_content" true
        (fun k => (Except.error (PyErr.runtimeError ("boom" ++ toString k))
          : Except PyErr Unit)) (fun _ => 1) 0).sleeps = [2, 4, 8] ∧
    (executeStepWithRetry defaultCfg "research_content" true
        (fun k => (Except.error (PyErr.runtimeError ("boom" ++ toString k))
          : Except PyErr Unit)) (fun _ => 1) 0).result =
      Except.error (PyErr.runtimeError "boom3") := by
  have h := retry_exhaustion_deterministic defaultCfg "research_content"
    (fun k => (Except.error (PyErr.runtimeError ("boom" ++ toString k))
      : Except PyErr Unit)) (fun _ => 1)
    (fun k => PyErr.runtimeError ("boom" ++ toString k)) 0
    (fun k => rfl) (by decide)
  refine ⟨?_, ?_, ?_⟩
  · rw [h.1]; decide
  · rw [h.2.2.1]; decide
  · rw [h.2.2.2]; decide

lemma alistLookup_erase_self {κ β : Type} [BEq κ] (l : List (κ × β)) (k : κ) :
    alistLookup (alistErase l k) k = none := by
  induction l with
  | nil => rfl
  | cons a l ih =>
    by_cases h : a.1 == k
    · simpa [alistErase, h] using ih
    · simpa [alistErase, alistLookup, List.find?_cons_of_neg _ h, h] using ih

lemma alistLookup_insert_self {κ β : Type} [BEq κ] [LawfulBEq κ]
    (l : List (κ × β)) (k : κ) (v : β) :
    alistLookup (alistInsert l k v) k = some v := by
  have herase := alistLookup_erase_self l k
  simp only [alistLookup, alistInsert] at *
  rw [List.find?_append]
  cases hfind : List.find? (fun e => e.1 == k) (alistErase l k) with
  | none => simp [List.find?]
  | some e => rw [hfind] at herase; simp at herase

/-- Helper: every level's TTL is positive. -/
lemma ttlSeconds_pos (level : CacheLevel) : (0 : Rat) < ttlSeconds level := by
  cases level <;> norm_num [ttlSeconds]

/-- C5: for every cache level, identifier and payload, a successful
`set` followed immediately by `get` on the same `(level, identifier)`
returns the stored payload, and once the level's TTL has elapsed
since the stored timestamp (strictly more than TTL seconds later),
`get` returns absent and the underlying cache file is deleted. -/
theorem cache_set_get_round_trip {α : Type} (cacheDir : String) (fs : CacheFS α)
    (now : Rat) (level : CacheLevel) (identifier : String) (data : α) :
    (cacheSet cacheDir fs now level identifier data).1 = true ∧
    (cacheGet cacheDir (cacheSet cacheDir fs now level identifier data).2
      now level identifier).1 = some data ∧
    (∀ later : Rat, later - now > ttlSeconds level →
      (cacheGet cacheDir (cacheSet cacheDir fs now level identifier data).2
        later level identifier).1 = none ∧
      alistLookup
        (cacheGet cacheDir (cacheSet cacheDir fs now level identifier data).2
          later level identifier).2
        (cachePathOf cacheDir (cacheKeyOf level identifier)) = none) := by
  have hins := alistLookup_insert_self fs
    (cachePathOf cacheDir (cacheKeyOf level identifier))
    (CacheFile.valid now level.value identifier (cacheKeyOf level identifier) data)
  refine ⟨rfl, ?_, ?_⟩
  · have hneg : ¬ ttlSeconds level < 0 := by
      have := ttlSeconds_pos level
      linarith
    simp [cacheGet, cacheSet, hins, hneg]
  · intro later hlate
    constructor
    · simp [cacheGet, cacheSet, hins, hlate]
    · simp [cacheGet, cacheSet, hins, hlate, alistLookup_erase_self]

/-- Witness for C5 at a concrete input: a search-results entry cached
at time 100 is readable at time 100 and gone (value and file) one
second past its 24-hour TTL. -/
theorem cache_set_get_round_trip_witness :
    (cacheGet ".cache/research" (cacheSet ".cache/research" ([] : CacheFS Nat) 100
      CacheLevel.searchResults "q1" 42).2 100 CacheLevel.searchResults "q1").1 = some 42 ∧
    (cacheGet ".cache/research" (cacheSet ".cache/research" ([] : CacheFS Nat) 100
      CacheLevel.searchResults "q1" 42).2 86501 CacheLevel.searchResults "q1").1 = none := by
  have h := cache_set_get_round_trip ".cache/research" ([] : CacheFS Nat) 100
    CacheLevel.searchResults "q1" 42
  exact ⟨h.2.1, (h.2.2 86501 (by norm_num [ttlSeconds])).1⟩

lemma pyRfind_lt_length (cs : List Char) (c : Char) :
    pyRfind cs c < (cs.length : Int) := by
  induction cs with
  | nil => simp [pyRfind]
  | cons x xs ih =>
    by_cases h : pyRfind xs c ≥ 0
    · simp only [pyRfind, h, if_pos, List.length_cons]
      push_cast
      omega
    · by_cases hx : x = c
      · simp [pyRfind, h, hx]
      · simp only [pyRfind, h, hx, if_false, List.length_cons]
        push_cast
        omega

lemma pyRfind_getElem (cs : List Char) (c : Char) (h : 0 ≤ pyRfind cs c) :
    cs[(pyRfind cs c).toNat]? = some c := by
  induction cs with
  | nil => simp [pyRfind] at h
  | cons x xs ih =>
    by_cases hr : pyRfind xs c ≥ 0
    · have hv : pyRfind (x :: xs) c = pyRfind xs c + 1 := by simp [pyRfind, hr]
      have ht : (pyRfind xs c + 1).toNat = (pyRfind xs c).toNat + 1 := by omega
      rw [hv, ht]
      simpa using ih hr
    · by_cases hx : x = c
      · have hv : pyRfind (x :: xs) c = 0 := by simp [pyRfind, hr, hx]
        rw [hv]
        simp [hx]
      · have hv : pyRfind (x :: xs) c = -1 := by simp [pyRfind, hr, hx]
        rw [hv] at h
        omega

lemma take_rfind_getLast (cs : List Char) (c : Char) (h : 0 ≤ pyRfind cs c) :
    (cs.take ((pyRfind cs c).toNat + 1)).getLast? = some c := by
  rw [List.take_succ, pyRfind_getElem cs c h]
  simp [List.getLast?_concat]

/-- C9: `check_content_size` returns the content unchanged when the
token estimate (`len(content) // 4`) does not exceed the configured
ceiling; otherwise it returns a prefix of the content of at most
`ceiling * 4` characters — further cut to end at the last
sentence-ending period whenever that period lies within the final 20%
of the limit (`last_period > max_chars * 0.8`) — with the visible
truncation marker always appended. -/
theorem content_size_truncation (maxDocTokens : Nat) (content : List Char) :
    (content.length / 4 ≤ maxDocTokens →
      checkContentSize maxDocTokens content = content) ∧
    (maxDocTokens < content.length / 4 →
      ∃ k, k ≤ maxDocTokens * 4 ∧
        checkContentSize maxDocTokens content =
          content.take k ++ truncMarker maxDocTokens ∧
        (pyRfind (content.take (maxDocTokens * 4)) '.' * 5 >
            ((maxDocTokens * 4 : Nat) : Int) * 4 →
          (content.take k).getLast? = some '.')) := by
  constructor
  · intro h
    simp [checkContentSize, not_lt.mpr h]
  · intro h
    by_cases hcond : pyRfind (content.take (maxDocTokens * 4)) '.' * 5 >
        ((maxDocTokens * 4 : Nat) : Int) * 4
    · have hlp0 : 0 ≤ pyRfind (content.take (maxDocTokens * 4)) '.' := by
        by_contra hneg
        omega
      have hlen := pyRfind_lt_length (content.take (maxDocTokens * 4)) '.'
      have htklen : (content.take (maxDocTokens * 4)).length ≤ maxDocTokens * 4 := by
        simp [List.length_take]
      refine ⟨(pyRfind (content.take (maxDocTokens * 4)) '.' + 1).toNat, by omega, ?_, ?_⟩
      · have : (content.take (maxDocTokens * 4)).take
            (pyRfind (content.take (maxDocTokens * 4)) '.' + 1).toNat =
            content.take (pyRfind (content.take (maxDocTokens * 4)) '.' + 1).toNat := by
          rw [List.take_take]
          congr 1
          omega
        simp only [checkContentSize, if_pos h, if_pos hcond]
        rw [this]
      · intro _
        have ht : (pyRfind (content.take (maxDocTokens * 4)) '.' + 1).toNat =
            (pyRfind (content.take (maxDocTokens * 4)) '.').toNat + 1 := by omega
        have hback : content.take (pyRfind (content.take (maxDocTokens * 4)) '.' + 1).toNat =
            (content.take (maxDocTokens * 4)).take
              ((pyRfind (content.take (maxDocTokens * 4)) '.').toNat + 1) := by
          rw [List.take_take]
          congr 1
          omega
        rw [hback]
        exact take_rfind_getLast _ _ hlp0
    · refine ⟨maxDocTokens * 4, le_refl _, ?_, fun hc => absurd hc hcond⟩
      simp only [checkContentSize, if_pos h, if_neg hcond]

/-- Witness for C9 at concrete inputs: a short content is returned
unchanged; a 12-character content against a 2-token ceiling is cut at
the period at index 7 (inside the final 20% of the 8-character limit)
with the marker appended. -/
theorem content_size_truncation_witness :
    checkContentSize 9 ("short".toList) = "short".toList ∧
    (∃ k, k ≤ 8 ∧
      checkContentSize 2 ("abcdefg.xyzw".toList) =
        ("abcdefg.xyzw".toList.take k) ++ truncMarker 2 ∧
      ("abcdefg.xyzw".toList.take k).getLast? = some '.') := by
  constructor
  · exact (content_size_truncation 9 ("short".toList)).1 (by decide)
  · obtain ⟨k, hk, heq, hdot⟩ :=
      (content_size_truncation 2 ("abcdefg.xyzw".toList)).2 (by decide)
    exact ⟨k, hk, heq, hdot (by decide)⟩

lemma checkRobotsTxt_domainCount (g : GuardState) (env : List Char → RobotsResp)
    (domain : List Char) (url : MUrl) :
    (checkRobotsTxt g env domain url).2.domainRequestCount = g.domainRequestCount := by
  unfold checkRobotsTxt
  dsimp only
  rcases h : alistLookup g.robotsCache (domain ++ ":robots".toList) with _ | v
  · dsimp only
    rcases henv : env domain with ⟨code, body⟩ | _
    · dsimp only
      split_ifs <;> rfl
    · rfl
  · rfl

lemma checkRobotsTxt_fresh_caches (g : GuardState) (env : List Char → RobotsResp)
    (domain : List Char) (url : MUrl)
    (hfresh : alistLookup g.robotsCache (domain ++ ":robots".toList) = none) :
    (checkRobotsTxt g env domain url).2.robotsCache =
      alistInsert g.robotsCache (domain ++ ":robots".toList)
        (checkRobotsTxt g env domain url).1 := by
  unfold checkRobotsTxt
  dsimp only
  rw [hfresh]
  dsimp only
  rcases henv : env domain with ⟨code, body⟩ | _
  · dsimp only
    split_ifs <;> rfl
  · rfl

lemma checkRobotsTxt_cached (g : GuardState) (env : List Char → RobotsResp)
    (domain : List Char) (url : MUrl) (v : Bool)
    (hhit : alistLookup g.robotsCache (domain ++ ":robots".toList) = some v) :
    checkRobotsTxt g env domain url = (v, g) := by
  unfold checkRobotsTxt
  dsimp only
  rw [hhit]

/-- C10: with robots checking enabled, the allow/deny verdict for a
domain is computed from the *first* URL checked on that domain and
cached; any later `check_url_allowed` call for a different URL of the
same domain (while under the domain quota) is decided by that cached
first verdict regardless of the later URL's own path — a denied first
URL blocks every subsequent URL of the domain and an allowed first
URL admits them all. -/
theorem robots_verdict_cached_per_domain (cfg : GuardCfg) (g : GuardState)
    (env : List Char → RobotsResp) (url1 url2 : MUrl)
    (hrr : cfg.respectRobotsTxt = true)
    (hfresh : alistLookup g.robotsCache (domainOf url1 ++ ":robots".toList) = none)
    (hquota : domainCount g (domainOf url1) < cfg.maxDocsPerDomain)
    (hs : url2.scheme = url1.scheme) (hn : url2.netloc = url1.netloc) :
    (checkUrlAllowed cfg g env url1).1 =
      (if (checkRobotsTxt g env (domainOf url1) url1).1 = true then Except.ok true
       else Except.error (PyErr.valueError
         ("URL blocked by robots.txt: " ++ String.mk url1.raw))) ∧
    (checkUrlAllowed cfg (checkUrlAllowed cfg g env url1).2 env url2).1 =
      (if (checkRobotsTxt g env (domainOf url1) url1).1 = true then Except.ok true
       else Except.error (PyErr.valueError
         ("URL blocked by robots.txt: " ++ String.mk url2.raw))) := by
  have hdom : domainOf url2 = domainOf url1 := by simp [domainOf, hs, hn]
  have hnq : ¬ domainCount g (domainOf url1) ≥ cfg.maxDocsPerDomain := not_le.mpr hquota
  have h1 : checkUrlAllowed cfg g env url1 =
      (if (checkRobotsTxt g env (domainOf url1) url1).1 = true
        then (Except.ok true, (checkRobotsTxt g env (domainOf url1) url1).2)
        else (Except.error (PyErr.valueError
            ("URL blocked by robots.txt: " ++ String.mk url1.raw)),
          (checkRobotsTxt g env (domainOf url1) url1).2)) := by
    unfold checkUrlAllowed
    rw [if_neg hnq, if_pos hrr]
  have hg1 : (checkUrlAllowed cfg g env url1).2 =
      (checkRobotsTxt g env (domainOf url1) url1).2 := by
    rw [h1]
    split_ifs <;> rfl
  constructor
  · rw [h1]
    split_ifs <;> rfl
  · rw [hg1]
    have hcount2 : domainCount (checkRobotsTxt g env (domainOf url1) url1).2
        (domainOf url2) = domainCount g (domainOf url1) := by
      unfold domainCount
      rw [checkRobotsTxt_domainCount, hdom]
    have hhit : alistLookup (checkRobotsTxt g env (domainOf url1) url1).2.robotsCache
        (domainOf url2 ++ ":robots".toList) =
        some (checkRobotsTxt g env (domainOf url1) url1).1 := by
      rw [hdom, checkRobotsTxt_fresh_caches g env (domainOf url1) url1 hfresh]
      exact alistLookup_insert_self _ _ _
    unfold checkUrlAllowed
    rw [if_neg (by rw [hcount2]; exact hnq), if_pos hrr]
    rw [checkRobotsTxt_cached _ env (domainOf url2) url2 _ hhit]
    cases hb : (checkRobotsTxt g env (domainOf url1) url1).1 <;> simp [hb]

/-- Witness for C10 at a concrete input: `https://ex.com/robots.txt`
disallows `/private` for `User-agent: *`; the first checked URL has
path `/private/a`, so the cached verdict is deny, and a second URL
with the unrelated path `/public` is also blocked. -/
theorem robots_verdict_cached_per_domain_witness :
    (checkUrlAllowed {} {}
      (fun d => if d == "https://ex.com".toList
        then RobotsResp.status 200 ("User-agent: *\nDisallow: /private".toList)
        else RobotsResp.exn)
      { raw := "https://ex.com/public".toList, scheme := "https".toList,
        netloc := "ex.com".toList, path := "/public".toList }).1 =
      Except.ok true ∧
    (checkUrlAllowed {}
      (checkUrlAllowed {} {}
        (fun d => if d == "https://ex.com".toList
          then RobotsResp.status 200 ("User-agent: *\nDisallow: /private".toList)
          else RobotsResp.exn)
        { raw := "https://ex.com/private/a".toList, scheme := "https".toList,
          netloc := "ex.com".toList, path := "/private/a".toList }).2
      (fun d => if d == "https://ex.com".toList
        then RobotsResp.status 200 ("User-agent: *\nDisallow: /private".toList)
        else RobotsResp.exn)
      { raw := "https://ex.com/public".toList, scheme := "https".toList,
        netloc := "ex.com".toList, path := "/public".toList }).1 =
      Except.error (PyErr.valueError
        ("URL blocked by robots.txt: " ++ String.mk ("https://ex.com/public".toList))) := by
  have h := robots_verdict_cached_per_domain {} {}
    (fun d => if d == "https://ex.com".toList
      then RobotsResp.status 200 ("User-agent: *\nDisallow: /private".toList)
      else RobotsResp.exn)
    { raw := "https://ex.com/private/a".toList, scheme := "https".toList,
      netloc := "ex.com".toList, path := "/private/a".toList }
    { raw := "https://ex.com/public".toList, scheme := "https".toList,
      netloc := "ex.com".toList, path := "/public".toList }
    rfl (by decide) (by decide) rfl rfl
  refine ⟨by decide, ?_⟩
  rw [h.2]
  decide

/-- C1 (code evaluated at the failing input): every concrete agent
returns `status=Status.FAIL.value` — the *string* `"fail"` — on
failure, but `_run_agent` compares that string against the enum
member `Status.FAIL` with Python `==`, which is `False` for a str
versus a non-str `Enum`.  At a `PRDWriterAgent`-shaped failing
output, `_run_agent` appends the returned artifacts, adopts
`updated_spec`, and then returns normally: no `RuntimeError` is
raised and the pipeline continues. -/
theorem agent_fail_status_not_raised :
    runAgent
      (fun _ => Except.ok
        { artifacts := [{ name := "prd.md", path := "/out/prd.md", sha256Hash := none }],
          updatedSpec := some { schemaOk := true, exportBundle := true },
          status := StatusVal.pyStr "fail" })
      "prd_writer" { schemaOk := true, exportBundle := false } [] =
      (Except.ok { schemaOk := true, exportBundle := true },
       [{ name := "prd.md", path := "/out/prd.md", sha256Hash := none }]) := by
  decide

lemma runAgent_ok_eval (agents : String → Except PyErr MAgentOutput) (agentName : String)
    (spec : MSourceSpec) (bb : List MArtifact) (out : MAgentOutput)
    (hag : agents agentName = .ok out)
    (hstatus : statusValEq out.status (.pyEnum .fail) = false) :
    runAgent agents agentName spec bb =
      (Except.ok (match out.updatedSpec with | some s => s | none => spec),
       bb ++ out.artifacts) := by
  unfold runAgent
  rw [hag]
  dsimp only
  rw [hstatus]
  simp

lemma executeStep_ok_eval {α : Type} (cfg : OrchCfg) (sc : Nat) (stepName : String)
    (a : α) (dur : Rat) (hsc : sc < cfg.stepBudget)
    (hdur : ¬ dur > (cfg.timeoutPerStepSec : Rat)) :
    executeStep cfg sc stepName (Except.ok a) dur =
      { result := .ok a, stepCount := sc + 1,
        events := [stepStartEvent stepName, stepCompleteEvent stepName dur],
        invoked := true } := by
  simp [executeStep, not_le.mpr hsc, hdur]

lemma executeStepWithRetry_nonretry_ok {α : Type} (cfg : OrchCfg) (stepName : String)
    (runs : Nat → Except PyErr α) (durs : Nat → Rat) (sc : Nat) (a : α)
    (h0 : runs 0 = .ok a) (hsc : sc < cfg.stepBudget)
    (hdur : ¬ durs 0 > (cfg.timeoutPerStepSec : Rat)) :
    executeStepWithRetry cfg stepName false runs durs sc =
      { result := .ok a, stepCount := sc + 1,
        events := [stepStartEvent stepName, stepCompleteEvent stepName (durs 0)],
        sleeps := [], attemptNames := [stepName], invocations := 1 } := by
  unfold executeStepWithRetry
  rw [h0, executeStep_ok_eval cfg sc stepName a (durs 0) hsc hdur]
  simp

lemma executeStepWithRetry_retry_firstOk {α : Type} (cfg : OrchCfg) (stepName : String)
    (runs : Nat → Except PyErr α) (durs : Nat → Rat) (sc : Nat) (a : α)
    (h0 : runs 0 = .ok a) (hsc : sc < cfg.stepBudget)
    (hdur : ¬ durs 0 > (cfg.timeoutPerStepSec : Rat)) :
    executeStepWithRetry cfg stepName true runs durs sc =
      { result := .ok a, stepCount := sc + 1,
        events := [stepStartEvent (stepName ++ "_attempt_" ++ toString (0 + 1)),
          stepCompleteEvent (stepName ++ "_attempt_" ++ toString (0 + 1)) (durs 0)],
        sleeps := [], attemptNames := [stepName ++ "_attempt_" ++ toString (0 + 1)],
        invocations := 1 } := by
  rw [executeStepWithRetry, if_pos rfl, retryFrom]
  rw [h0, executeStep_ok_eval cfg sc _ a (durs 0) hsc hdur]
  simp

lemma runAgentStage_ok_eval (cfg : OrchCfg) (agents : String → Except PyErr MAgentOutput)
    (stepName agentName : String) (dur : Rat) (st : PipeState) (out : MAgentOutput)
    (hag : agents agentName = .ok out)
    (hstatus : statusValEq out.status (.pyEnum .fail) = false)
    (hsc : st.stepCount < cfg.stepBudget)
    (hdur : ¬ dur > (cfg.timeoutPerStepSec : Rat)) :
    runAgentStage cfg agents stepName agentName false dur st =
      (Except.ok (match out.updatedSpec with | some s => s | none => st.spec),
       { st with
         stepCount := st.stepCount + 1,
         events := st.events ++ [stepStartEvent stepName, stepCompleteEvent stepName dur],
         blackboard := st.blackboard ++ out.artifacts,
         agentCalls := st.agentCalls ++ [agentName] }) := by
  simp only [runAgentStage]
  rw [executeStepWithRetry_nonretry_ok cfg stepName _ (fun _ => dur) st.stepCount
      (match out.updatedSpec with | some s => s | none => st.spec)
      (by rw [runAgent_ok_eval agents agentName st.spec st.blackboard out hag hstatus])
      hsc hdur]
  simp [Function.iterate_one, runAgent_ok_eval agents agentName st.spec st.blackboard out hag hstatus]

lemma runRenderStage_ok_eval (cfg : OrchCfg) (render : Option MArtifact) (dur : Rat)
    (st : PipeState) (hsc : st.stepCount < cfg.stepBudget)
    (hdur : ¬ dur > (cfg.timeoutPerStepSec : Rat)) :
    runRenderStage cfg render dur st =
      (Except.ok (),
       { st with
         stepCount := st.stepCount + 1,
         events := st.events ++ [stepStartEvent "render_packs_attempt_1",
           stepCompleteEvent "render_packs_attempt_1" dur],
         blackboard := st.blackboard ++ render.toList }) := by
  unfold runRenderStage
  rw [executeStepWithRetry_retry_firstOk cfg "render_packs" _ (fun _ => dur) st.stepCount ()
      rfl hsc hdur]
  simp [Function.iterate_one]
  exact ⟨rfl, rfl⟩

lemma runAgentStage_agentCalls (cfg : OrchCfg) (agents : String → Except PyErr MAgentOutput)
    (stepName agentName : String) (retryable : Bool) (dur : Rat) (st : PipeState) :
    ∃ k, (runAgentStage cfg agents stepName agentName retryable dur st).2.agentCalls
      = st.agentCalls ++ List.replicate k agentName :=
  ⟨_, rfl⟩

lemma seqStep_not_called (n : String) (r : Except PyErr Unit × PipeState)
    (f : PipeState → Except PyErr Unit × PipeState)
    (hr : n ∉ r.2.agentCalls)
    (hf : ∀ st, n ∉ st.agentCalls → n ∉ (f st).2.agentCalls) :
    n ∉ (seqStep r f).2.agentCalls := by
  rcases r with ⟨res, st⟩
  cases res with
  | error e => exact hr
  | ok a => exact hf st hr

lemma notCalled_runAgentStage (n : String) (cfg : OrchCfg)
    (agents : String → Except PyErr MAgentOutput)
    (stepName agentName : String) (retryable : Bool) (dur : Rat) (st : PipeState)
    (hne : agentName ≠ n) (h : n ∉ st.agentCalls) :
    n ∉ (runAgentStage cfg agents stepName agentName retryable dur st).2.agentCalls := by
  obtain ⟨k, hk⟩ := runAgentStage_agentCalls cfg agents stepName agentName retryable dur st
  rw [hk]
  simp [List.mem_append, List.mem_replicate, h, Ne.symm hne]

lemma balanced_no_librarian (cfg : OrchCfg) (agents : String → Except PyErr MAgentOutput)
    (ctx : MRunContext) (render : Option MArtifact) (durOf : String → Rat) (st : PipeState)
    (hguard : researchGuard ctx = false)
    (h : "librarian" ∉ st.agentCalls) :
    "librarian" ∉ (runBalancedBody cfg agents ctx render durOf st).2.agentCalls := by
  unfold runBalancedBody
  rw [hguard]
  rw [if_neg (by decide : ¬((false : Bool) = true))]
  apply seqStep_not_called
  · simpa [addEvent] using h
  · intro st1 h1
    dsimp only
    apply seqStep_not_called
    · exact notCalled_runAgentStage _ cfg agents _ _ _ _ _ (by decide)
        (by simpa [addEvent] using h1)
    · intro st2 h2
      dsimp only
      apply seqStep_not_called
      · exact notCalled_runAgentStage _ cfg agents _ _ _ _ _ (by decide)
          (by simpa [addEvent] using h2)
      · intro st3 h3
        dsimp only
        apply seqStep_not_called
        · exact notCalled_runAgentStage _ cfg agents _ _ _ _ _ (by decide)
            (by simpa [addEvent] using h3)
        · intro st4 h4
          dsimp only
          apply seqStep_not_called
          · exact notCalled_runAgentStage _ cfg agents _ _ _ _ _ (by decide)
              (by simpa [addEvent] using h4)
          · intro st5 h5
            dsimp only
            exact h5

lemma deepFold_no_librarian (cfg : OrchCfg) (agents : String → Except PyErr MAgentOutput)
    (durOf : String → Rat) :
    ∀ (stages : List (String × String × String)),
      (∀ s ∈ stages, s.2.1 ≠ "librarian") →
      ∀ (r : Except PyErr Unit × PipeState), "librarian" ∉ r.2.agentCalls →
      "librarian" ∉ (stages.foldl (fun r stage => seqStep r fun st =>
          let st := addEvent st (stateEnterEvent stage.2.2)
          discardSpec (runAgentStage cfg agents stage.1 stage.2.1 false
            (durOf stage.1) st)) r).2.agentCalls := by
  intro stages
  induction stages with
  | nil => intro _ r hr; simpa using hr
  | cons s rest ih =>
    intro hall r hr
    simp only [List.foldl_cons]
    apply ih (fun x hx => hall x (List.mem_cons_of_mem _ hx))
    apply seqStep_not_called _ _ _ hr
    intro st h
    dsimp only
    exact notCalled_runAgentStage _ cfg agents _ _ _ _ _
      (hall s (List.mem_cons_self _ _)) (by simpa [addEvent] using h)

lemma deep_no_librarian (cfg : OrchCfg) (agents : String → Except PyErr MAgentOutput)
    (durOf : String → Rat) (st : PipeState)
    (h : "librarian" ∉ st.agentCalls) :
    "librarian" ∉ (runDeepBody cfg agents durOf st).2.agentCalls := by
  unfold runDeepBody
  exact deepFold_no_librarian cfg agents durOf deepStages (by decide) _
    (by simpa [addEvent] using h)

lemma validateAndFrame_no_librarian (cfg : OrchCfg)
    (agents : String → Except PyErr MAgentOutput) (spec0 : MSourceSpec)
    (pack : MPackType) (durOf : String → Rat) :
    "librarian" ∉ (validateAndFrame cfg agents spec0 pack durOf).2.agentCalls := by
  unfold validateAndFrame
  dsimp only
  apply seqStep_not_called
  · simp
  · intro st h
    dsimp only
    rcases hfr : (runAgentStage cfg agents "frame_spec" "framer" false
        (durOf "frame_spec") st).1 with e | sp
    · exact notCalled_runAgentStage _ cfg agents _ _ _ _ _ (by decide) h
    · exact notCalled_runAgentStage _ cfg agents _ _ _ _ _ (by decide) h

lemma prePackage_no_librarian (cfg : OrchCfg) (agents : String → Except PyErr MAgentOutput)
    (ctx : MRunContext) (spec0 : MSourceSpec) (pack : MPackType)
    (render : Option MArtifact) (durOf : String → Rat)
    (hguard : researchGuard ctx = false) :
    "librarian" ∉ (orchestratorPrePackage cfg agents ctx spec0 pack render
      durOf).2.agentCalls := by
  unfold orchestratorPrePackage
  dsimp only
  have hvf := validateAndFrame_no_librarian cfg agents spec0 pack durOf
  split_ifs
  · apply seqStep_not_called
    · apply seqStep_not_called _ _ _ hvf
      intro st h
      exact balanced_no_librarian cfg agents ctx render durOf st hguard h
    · intro st h
      exact deep_no_librarian cfg agents durOf st h
  · apply seqStep_not_called _ _ _ hvf
    intro st h
    exact deep_no_librarian cfg agents durOf st h
  · apply seqStep_not_called _ _ _ hvf
    intro st h
    exact balanced_no_librarian cfg agents ctx render durOf st hguard h
  · exact hvf

lemma orchestratorRun_no_librarian (cfg : OrchCfg)
    (agents : String → Except PyErr MAgentOutput) (ctx : MRunContext)
    (spec0 : MSourceSpec) (pack : MPackType) (render : Option MArtifact)
    (durOf : String → Rat)
    (hguard : researchGuard ctx = false) :
    "librarian" ∉ (orchestratorRun cfg agents ctx spec0 pack render
      durOf).state.agentCalls := by
  have hpre := prePackage_no_librarian cfg agents ctx spec0 pack render durOf hguard
  unfold orchestratorRun
  dsimp only
  rcases hp : orchestratorPrePackage cfg agents ctx spec0 pack render durOf with ⟨res, st⟩
  rw [hp] at hpre
  cases res with
  | error e => exact hpre
  | ok a =>
    dsimp only [seqStep]
    have hpk : "librarian" ∉ (runAgentStage cfg agents "package_outputs" "packager" false
        (durOf "package_outputs") st).2.agentCalls :=
      notCalled_runAgentStage _ cfg agents _ _ _ _ _ (by decide) hpre
    rcases hq : (runAgentStage cfg agents "package_outputs" "packager" false
        (durOf "package_outputs") st) with ⟨pres, pst⟩
    rw [hq] at hpk
    cases pres with
    | error e => exact hpk
    | ok sp => exact hpk

lemma runAgentStage_ok_calls (cfg : OrchCfg) (agents : String → Except PyErr MAgentOutput)
    (stepName agentName : String) (dur : Rat) (st : PipeState) (s : MSourceSpec)
    (h : (runAgentStage cfg agents stepName agentName false dur st).1 = .ok s) :
    (runAgentStage cfg agents stepName agentName false dur st).2.agentCalls =
      st.agentCalls ++ [agentName] := by
  simp only [runAgentStage, executeStepWithRetry] at h ⊢
  rw [if_neg (by decide : ¬((false : Bool) = true))] at h ⊢
  dsimp only at h ⊢
  have hinv := (executeStep_ok_inv cfg st.stepCount stepName _ dur s h).2.1
  rw [hinv]
  simp

lemma orchestratorRun_packager_last (cfg : OrchCfg)
    (agents : String → Except PyErr MAgentOutput) (ctx : MRunContext)
    (spec0 : MSourceSpec) (pack : MPackType) (render : Option MArtifact)
    (durOf : String → Rat) (arts : List MArtifact)
    (h : (orchestratorRun cfg agents ctx spec0 pack render durOf).result = .ok arts) :
    ∃ pre, (orchestratorRun cfg agents ctx spec0 pack render durOf).state.agentCalls
      = pre ++ ["packager"] := by
  unfold orchestratorRun at h ⊢
  dsimp only at h ⊢
  rcases hp : orchestratorPrePackage cfg agents ctx spec0 pack render durOf with ⟨res, st⟩
  rw [hp] at h
  cases res with
  | error e =>
    dsimp only [seqStep] at h
    exact absurd h (by simp)
  | ok a =>
    dsimp only [seqStep] at h ⊢
    rcases hq : runAgentStage cfg agents "package_outputs" "packager" false
      (durOf "package_outputs") st with ⟨pres, pst⟩
    rw [hq] at h
    cases pres with
    | error e =>
      dsimp only [discardSpec, Except.map] at h
      exact absurd h (by simp)
    | ok sp =>
      dsimp only [discardSpec, Except.map]
      have hcalls := runAgentStage_ok_calls cfg agents "package_outputs" "packager"
        (durOf "package_outputs") st sp (by rw [hq])
      rw [hq] at hcalls
      exact ⟨st.agentCalls, hcalls⟩

/-- C4: when the run context is offline — or more generally whenever
the research guard (`offline` false AND audience mode "balanced" or
"deep") does not hold — the librarian agent is never invoked in any
pipeline; and an offline balanced run whose other agents return
successfully (with at least one PRD artifact) still completes,
returns a non-empty artifact index, logs the `state_skip` audit
event, and never invokes the librarian. -/
theorem offline_guard_research_skip :
    (∀ (cfg : OrchCfg) (agents : String → Except PyErr MAgentOutput) (ctx : MRunContext)
        (spec0 : MSourceSpec) (pack : MPackType) (render : Option MArtifact)
        (durOf : String → Rat),
      (ctx.offline = true ∨
        (ctx.audienceMode.value ≠ "balanced" ∧ ctx.audienceMode.value ≠ "deep")) →
      "librarian" ∉
        (orchestratorRun cfg agents ctx spec0 pack render durOf).state.agentCalls) ∧
    (∀ (agents : String → Except PyErr MAgentOutput) (ctx : MRunContext)
        (spec0 : MSourceSpec) (render : Option MArtifact) (durOf : String → Rat)
        (o1 o2 o3 o4 o5 o6 : MAgentOutput),
      ctx.offline = true →
      spec0.schemaOk = true →
      (∀ s, durOf s ≤ 60) →
      agents "framer" = .ok o1 → statusValEq o1.status (.pyEnum .fail) = false →
      agents "prd_writer" = .ok o2 → statusValEq o2.status (.pyEnum .fail) = false →
      agents "diagrammer" = .ok o3 → statusValEq o3.status (.pyEnum .fail) = false →
      agents "qa_architect" = .ok o4 → statusValEq o4.status (.pyEnum .fail) = false →
      agents "roadmapper" = .ok o5 → statusValEq o5.status (.pyEnum .fail) = false →
      agents "packager" = .ok o6 → statusValEq o6.status (.pyEnum .fail) = false →
      o2.artifacts ≠ [] →
      ∃ arts,
        (orchestratorRun defaultCfg agents ctx spec0 .balanced render durOf).result
          = .ok arts ∧ arts ≠ [] ∧
        stateSkipEvent ∈
          (orchestratorRun defaultCfg agents ctx spec0 .balanced render durOf).state.events ∧
        "librarian" ∉
          (orchestratorRun defaultCfg agents ctx spec0 .balanced render
            durOf).state.agentCalls) := by
  have guardFalse : ∀ ctx : MRunContext,
      (ctx.offline = true ∨
        (ctx.audienceMode.value ≠ "balanced" ∧ ctx.audienceMode.value ≠ "deep")) →
      researchGuard ctx = false := by
    intro ctx hc
    rcases hc with hoff | ⟨hb, hd⟩
    · simp [researchGuard, hoff]
    · simp [researchGuard, beq_eq_false_iff_ne.mpr hb, beq_eq_false_iff_ne.mpr hd]
  constructor
  · intro cfg agents ctx spec0 pack render durOf hc
    exact orchestratorRun_no_librarian cfg agents ctx spec0 pack render durOf
      (guardFalse ctx hc)
  · intro agents ctx spec0 render durOf o1 o2 o3 o4 o5 o6
      hoff hspec hdur h1 s1 h2 s2 h3 s3 h4 s4 h5 s5 h6 s6 hprd
    have hguard : researchGuard ctx = false := guardFalse ctx (Or.inl hoff)
    have hnd : ∀ s, ¬ durOf s > ((defaultCfg.timeoutPerStepSec : Nat) : Rat) := by
      intro s
      have h := hdur s
      simp only [defaultCfg, not_lt]
      push_cast
      linarith
    have hv : (if spec0.schemaOk = true then Except.ok ()
        else Except.error (PyErr.valueError "Spec validation failed")) = Except.ok () := by
      simp [hspec]
    simp only [orchestratorRun, orchestratorPrePackage, validateAndFrame]
    rw [if_pos (Or.inl trivial : True ∨ MPackType.balanced = MPackType.both)]
    rw [if_neg (by decide : ¬(MPackType.balanced = MPackType.deep
      ∨ MPackType.balanced = MPackType.both))]
    rw [hv]
    rw [executeStep_ok_eval defaultCfg 0 "validate_spec" () (durOf "validate_spec")
      (by decide) (hnd _)]
    dsimp only [seqStep]
    rw [runAgentStage_ok_eval defaultCfg agents "frame_spec" "framer" (durOf "frame_spec")
      _ o1 h1 s1 (by simp [defaultCfg]) (hnd _)]
    dsimp only [seqStep]
    simp only [runBalancedBody, hguard]
    rw [if_neg (by decide : ¬((false : Bool) = true))]
    dsimp only [seqStep, addEvent]
    rw [runAgentStage_ok_eval defaultCfg agents "write_prd" "prd_writer" (durOf "write_prd")
      _ o2 h2 s2 (by simp [defaultCfg]) (hnd _)]
    dsimp only [seqStep, discardSpec, addEvent, Except.map]
    rw [runAgentStage_ok_eval defaultCfg agents "generate_diagrams" "diagrammer"
      (durOf "generate_diagrams") _ o3 h3 s3 (by simp [defaultCfg]) (hnd _)]
    dsimp only [seqStep, discardSpec, addEvent, Except.map]
    rw [runAgentStage_ok_eval defaultCfg agents "design_tests" "qa_architect"
      (durOf "design_tests") _ o4 h4 s4 (by simp [defaultCfg]) (hnd _)]
    dsimp only [seqStep, discardSpec, addEvent, Except.map]
    rw [runAgentStage_ok_eval defaultCfg agents "create_roadmap" "roadmapper"
      (durOf "create_roadmap") _ o5 h5 s5 (by simp [defaultCfg]) (hnd _)]
    dsimp only [seqStep, discardSpec, addEvent, Except.map]
    rw [runRenderStage_ok_eval defaultCfg render (durOf "render_packs") _
      (by simp [defaultCfg]) (hnd _)]
    dsimp only [seqStep, discardSpec, addEvent, Except.map]
    rw [runAgentStage_ok_eval defaultCfg agents "package_outputs" "packager"
      (durOf "package_outputs") _ o6 h6 s6 (by simp [defaultCfg]) (hnd _)]
    dsimp only [seqStep, discardSpec, addEvent, Except.map]
    refine ⟨_, rfl, ?_, ?_, ?_⟩
    · simp [List.append_eq_nil, hprd]
    · simp
    · decide

/-- A stub agent output used by concrete run instances: `ok` status
(as the string `Status.OK.value`), no spec update. -/
def stubOutput (arts : List MArtifact) : MAgentOutput :=
  { artifacts := arts, updatedSpec := none, status := .pyStr "ok" }

/-- A concrete agent registry whose PRD writer produces one artifact
and whose remaining agents produce none. -/
def stubAgents : String → Except PyErr MAgentOutput := fun n =>
  if n == "prd_writer" then
    .ok (stubOutput [{ name := "prd.md", path := "/out/prd.md", sha256Hash := none }])
  else .ok (stubOutput [])

/-- Witness for C4 at a concrete input: an offline balanced run with
the stub registry completes with a non-empty index, logs the skip
event, and never calls the librarian. -/
theorem offline_guard_research_skip_witness :
    ∃ arts,
      (orchestratorRun defaultCfg stubAgents
        { offline := true, audienceMode := .balanced }
        { schemaOk := true, exportBundle := false } .balanced none
        (fun _ => 1)).result = .ok arts ∧ arts ≠ [] ∧
      stateSkipEvent ∈
        (orchestratorRun defaultCfg stubAgents
          { offline := true, audienceMode := .balanced }
          { schemaOk := true, exportBundle := false } .balanced none
          (fun _ => 1)).state.events ∧
      "librarian" ∉
        (orchestratorRun defaultCfg stubAgents
          { offline := true, audienceMode := .balanced }
          { schemaOk := true, exportBundle := false } .balanced none
          (fun _ => 1)).state.agentCalls :=
  offline_guard_research_skip.2 stubAgents
    { offline := true, audienceMode := .balanced }
    { schemaOk := true, exportBundle := false } none (fun _ => 1)
    (stubOutput []) (stubOutput [{ name := "prd.md", path := "/out/prd.md", sha256Hash := none }])
    (stubOutput []) (stubOutput []) (stubOutput []) (stubOutput [])
    rfl rfl (fun _ => by norm_num)
    rfl rfl rfl rfl rfl rfl rfl rfl rfl rfl rfl rfl
    (by decide)

/-- C8 counterexample: with `spec.export.bundle` unset, the Package
stage is a no-op — at a blackboard holding one artifact whose file
exists and whose hash is unset, `PackagerAgent.run` leaves the hash
uncomputed (and bundles nothing), refuting the claim that it computes
the content hash of every existing artifact on every run. -/
theorem package_no_bundle_skips_hashing :
    (packagerRun false
      [{ name := "prd.md", path := "/out/prd.md", sha256Hash := none }] "/out"
      (fun _ => true) (fun _ => "bytes")).blackboard =
      [{ name := "prd.md", path := "/out/prd.md", sha256Hash := none }] ∧
    (packagerRun false
      [{ name := "prd.md", path := "/out/prd.md", sha256Hash := none }] "/out"
      (fun _ => true) (fun _ => "bytes")).artifacts = [] := by
  decide

lemma zipped_paths_eq (fsExists : String → Bool) (fileBytes : String → String) :
    ∀ l : List MArtifact,
      ((l.map (hashUpdate fsExists fileBytes)).filter
        (fun a => fsExists a.path)).map (fun a => a.path)
        = (l.filter fun a => fsExists a.path).map (fun a => a.path) := by
  intro l
  induction l with
  | nil => rfl
  | cons x xs ih =>
    by_cases hfe : fsExists x.path = true <;> by_cases hn : x.sha256Hash = none <;>
      simp [hashUpdate, hfe, hn, ih]

/-- C8 amended: the Package stage runs last on every run that
completes, for every pack type; when `spec.export.bundle` is set it
computes the SHA-256 hash of every blackboard artifact whose file
exists and whose hash is still unset, bundles every existing artifact
into `output_bundle.zip`, and returns the hashed zip as a new
artifact; when the bundle flag is unset it is a no-op that computes
no hashes and returns no artifacts. -/
theorem package_stage_behaviour :
    (∀ (cfg : OrchCfg) (agents : String → Except PyErr MAgentOutput) (ctx : MRunContext)
        (spec0 : MSourceSpec) (pack : MPackType) (render : Option MArtifact)
        (durOf : String → Rat) (arts : List MArtifact),
      (orchestratorRun cfg agents ctx spec0 pack render durOf).result = .ok arts →
      ∃ pre, (orchestratorRun cfg agents ctx spec0 pack render durOf).state.agentCalls
        = pre ++ ["packager"]) ∧
    (∀ (bb : List MArtifact) (outDir : String) (fsExists : String → Bool)
        (fileBytes : String → String),
      (∀ a ∈ (packagerRun true bb outDir fsExists fileBytes).blackboard,
        fsExists a.path = true → a.sha256Hash ≠ none) ∧
      (∀ a ∈ bb, fsExists a.path = true → a.sha256Hash = none →
        ({ a with sha256Hash := some (sha256Hex (fileBytes a.path)) } : MArtifact) ∈
          (packagerRun true bb outDir fsExists fileBytes).blackboard) ∧
      (packagerRun true bb outDir fsExists fileBytes).zipped =
        (bb.filter fun a => fsExists a.path).map (fun a => a.path) ∧
      (∃ hsh, (packagerRun true bb outDir fsExists fileBytes).artifacts =
        [{ name := "output_bundle.zip", path := outDir ++ "/output_bundle.zip",
           sha256Hash := some hsh }]) ∧
      (packagerRun true bb outDir fsExists fileBytes).zipped.length =
        ((packagerRun true bb outDir fsExists fileBytes).blackboard.filter
          (fun a => fsExists a.path)).length) ∧
    (∀ (bb : List MArtifact) (outDir : String) (fsExists : String → Bool)
        (fileBytes : String → String),
      (packagerRun false bb outDir fsExists fileBytes).blackboard = bb ∧
      (packagerRun false bb outDir fsExists fileBytes).artifacts = [] ∧
      (packagerRun false bb outDir fsExists fileBytes).zipped = []) := by
  refine ⟨?_, ?_, ?_⟩
  · intro cfg agents ctx spec0 pack render durOf arts h
    exact orchestratorRun_packager_last cfg agents ctx spec0 pack render durOf arts h
  · intro bb outDir fsExists fileBytes
    have hbb : (packagerRun true bb outDir fsExists fileBytes).blackboard =
        bb.map (hashUpdate fsExists fileBytes) := by
      simp [packagerRun]
    have hzip0 : (packagerRun true bb outDir fsExists fileBytes).zipped =
        ((bb.map (hashUpdate fsExists fileBytes)).filter
          (fun a => fsExists a.path)).map (fun a => a.path) := by
      simp [packagerRun]
    refine ⟨?_, ?_, ?_, ?_, ?_⟩
    · intro a ha hex
      rw [hbb] at ha
      rcases List.mem_map.mp ha with ⟨x, hx, rfl⟩
      unfold hashUpdate at hex ⊢
      by_cases hc : fsExists x.path ∧ x.sha256Hash = none
      · simp [hc]
      · simp only [hc, if_false] at hex ⊢
        intro hnone
        exact hc ⟨hex, hnone⟩
    · intro a ha hex hnone
      rw [hbb]
      refine List.mem_map.mpr ⟨a, ha, ?_⟩
      simp [hashUpdate, hex, hnone]
    · rw [hzip0]
      exact zipped_paths_eq fsExists fileBytes bb
    · refine ⟨sha256Hex (zipEncode ((((bb.map (hashUpdate fsExists fileBytes)).filter
        (fun a => fsExists a.path)).map (fun a => a.path)).map
        (fun p => (p, fileBytes p)))), ?_⟩
      simp [packagerRun, List.map_map]
    · rw [hzip0, hbb]
      simp
  · intro bb outDir fsExists fileBytes
    exact ⟨rfl, rfl, rfl⟩

/-- Witness for C8 at concrete inputs: a completed offline balanced
run's agent-call sequence ends with `"packager"`, and the no-bundle
packager leaves the blackboard untouched. -/
theorem package_stage_behaviour_witness :
    (∃ pre, (orchestratorRun defaultCfg stubAgents
      { offline := true, audienceMode := .balanced }
      { schemaOk := true, exportBundle := false } .balanced none
      (fun _ => 1)).state.agentCalls = pre ++ ["packager"]) ∧
    (packagerRun false
      [{ name := "a.md", path := "/out/a.md", sha256Hash := none }] "/out"
      (fun _ => true) (fun _ => "x")).blackboard =
      [{ name := "a.md", path := "/out/a.md", sha256Hash := none }] := by
  constructor
  · exact package_stage_behaviour.1 defaultCfg stubAgents
      { offline := true, audienceMode := .balanced }
      { schemaOk := true, exportBundle := false } .balanced none (fun _ => 1)
      [{ name := "prd.md", path := "/out/prd.md", sha256Hash := none }] (by decide)
  · exact (package_stage_behaviour.2.2
      [{ name := "a.md", path := "/out/a.md", sha256Hash := none }] "/out"
      (fun _ => true) (fun _ => "x")).1

end SpecToPack
